import Mathlib

set_option autoImplicit false

/-!
Shallow embedding of src/configuration/site.go (package configuration of
haproxytech/client-native): the Site aggregate built on top of primitive
frontend/backend/server/bind/backend-switching-rule operations.

Conventions:
* Go pointer-to-struct fields are `Option`; a Go nil-pointer dereference is
  the explicit `Out.panicked` outcome.
* Every primitive call is logged as an `Op`, whether it succeeds or fails,
  so that statements about which primitive operations a Site call issues
  can be made about the returned trace.
* The configuration document of one transaction is a `Doc`; the client state
  `St` holds the committed document plus the working documents of the open
  transactions, keyed by transaction id.
-/

namespace ClientNative

/-- One bind line of a frontend (models.Listener used by site.go). -/
structure Listener where
  name : String
  address : String
  port : Option Int
deriving DecidableEq, Repr

/-- One server of a backend (models.Server as used by site.go). -/
structure Server where
  name : String
  address : String
  port : Option Int
deriving DecidableEq, Repr

/-- models.SiteService: the frontend fields exposed on a Site. -/
structure SiteService where
  httpConnectionMode : String
  maxconn : Option Int
  mode : String
  listeners : List Listener
deriving DecidableEq, Repr

/-- models.SiteFarm: a backend plus its attachment to the Site. -/
structure SiteFarm where
  useAs : String
  cond : String
  condTest : String
  mode : String
  name : String
  forwardfor : String
  balance : String
  servers : List Server
deriving DecidableEq, Repr

/-- models.Site: the aggregate root. -/
structure Site where
  name : String
  service : Option SiteService
  farms : List SiteFarm
deriving DecidableEq, Repr

/-- models.Frontend restricted to the fields site.go reads and writes. -/
structure Frontend where
  name : String
  mode : String
  maxconn : Option Int
  httpConnectionMode : String
  defaultBackend : String
deriving DecidableEq, Repr

/-- models.Backend restricted to the fields site.go reads and writes. -/
structure Backend where
  name : String
  mode : String
  forwardfor : String
  balance : String
deriving DecidableEq, Repr

/-- models.BackendSwitchingRule as used by site.go. -/
structure Rule where
  id : Int
  name : String
  cond : String
  condTest : String
deriving DecidableEq, Repr

/-- First-match lookup in an association list keyed by strings. -/
def alookup {α : Type} : List (String × α) → String → Option α
  | [], _ => none
  | (k, v) :: m, key => if k = key then some v else alookup m key

/-- Replace the value of the first entry with the given key, or append a new
entry when the key is absent. -/
def aset {α : Type} : List (String × α) → String → α → List (String × α)
  | [], key, v => [(key, v)]
  | (k, w) :: m, key, v =>
    if k = key then (k, v) :: m else (k, w) :: aset m key v

/-- Remove every entry with the given key. -/
def aremove {α : Type} : List (String × α) → String → List (String × α)
  | [], _ => []
  | (k, v) :: m, key =>
    if k = key then aremove m key else (k, v) :: aremove m key

/-- Lookup returning the empty list when the key is absent. -/
def agetD {α : Type} (m : List (String × List α)) (key : String) : List α :=
  (alookup m key).getD []

/-- One transaction's working copy of the configuration document. Binds,
servers and switching rules are kept per owning section, in file order. -/
structure Doc where
  frontends : List Frontend
  backends : List Backend
  binds : List (String × List Listener)
  servers : List (String × List Server)
  rules : List (String × List Rule)
deriving DecidableEq, Repr

def Doc.empty : Doc := ⟨[], [], [], [], []⟩

/-- The error values site.go produces or passes through. -/
inductive ConfError where
  | validation (msg : String)
  | objectDoesNotExist (msg : String)
  | alreadyExists (msg : String)
  | txDoesNotExist (msg : String)
  | versionMismatch (msg : String)
  | generic (msg : String)
  | composite (errs : List ConfError)

/-- The trace of calls a Site-level operation makes: reads of the Site
aggregate, the transaction load, and every primitive CRUD call. -/
inductive Op where
  | loadData (txid t : String)
  | siteRead (name txid : String)
  | sitesRead (txid : String)
  | createFrontend (f : Frontend)
  | createBind (frontend : String) (l : Listener)
  | createBackend (b : Backend)
  | createServer (backend : String) (s : Server)
  | createRule (frontend : String) (r : Rule)
  | editFrontend (name : String) (f : Frontend)
  | editBind (name frontend : String) (l : Listener)
  | editBackend (name : String) (b : Backend)
  | editServer (name backend : String) (s : Server)
  | deleteBind (name frontend : String)
  | deleteServer (name backend : String)
  | deleteBackend (name : String)
  | deleteFrontend (name : String)
  | deleteRule (idx : Nat) (frontend : String)
deriving DecidableEq, Repr

/-- An op is a primitive mutation (create/edit/delete); transaction loads and
aggregate reads are not. -/
def Op.isMutation : Op → Bool
  | .loadData _ _ => false
  | .siteRead _ _ => false
  | .sitesRead _ => false
  | _ => true

/-- Outcome of a Go function that may crash on a nil-pointer dereference:
either it returns a value, or the call panics. State and trace accumulated
before the panic are preserved by the callers. -/
inductive Out (α : Type) where
  | ok (a : α)
  | panicked
deriving DecidableEq, Repr

/-- Client state: committed configuration, open transactions (id to working
document), a counter for fresh implicit-transaction ids, the configuration
version, and the client-side validation setting. The schema validator for
the models.Site aggregate is external to the source and is carried as an
abstract function. -/
structure St where
  committed : Doc
  txns : List (String × Doc)
  freshIdx : Nat
  version : Nat
  useValidation : Bool
  validateErr : Site → Option String

def getTxn (st : St) (t : String) : Option Doc := alookup st.txns t

def setTxn (st : St) (t : String) (d : Doc) : St :=
  { st with txns := aset st.txns t d }

/-- Modelled from the spec: GetParser returns the working document of the
given transaction, or the committed configuration when the transaction id is
empty (the transaction-coordinator surface of section 6). -/
def GetParser (txid : String) (st : St) : Except ConfError Doc :=
  if txid = "" then Except.ok st.committed
  else
    match getTxn st txid with
    | some d => Except.ok d
    | none => Except.error (ConfError.txDoesNotExist txid)

/-- Modelled from the spec: the configuration version attached to a parser. -/
def GetVersion (st : St) : Nat := st.version

/-- Modelled from the spec: loadForChange opens an implicit transaction when
the id is empty (checking the caller's base version optimistically), else
attaches to the existing transaction. Returns the transaction id to work in;
the working document is the one stored under that id. -/
def loadDataForChange (txid : String) (version : Nat) (st : St) :
    St × List Op × Except ConfError String :=
  if txid = "" then
    if version = st.version then
      let t := "tx" ++ toString st.freshIdx
      ({ st with txns := aset st.txns t st.committed, freshIdx := st.freshIdx + 1 },
       [Op.loadData txid t], Except.ok t)
    else
      (st, [Op.loadData txid ""],
       Except.error (ConfError.versionMismatch "version mismatch"))
  else
    match getTxn st txid with
    | some _ => (st, [Op.loadData txid txid], Except.ok txid)
    | none => (st, [Op.loadData txid txid],
               Except.error (ConfError.txDoesNotExist txid))

/-- Modelled from the spec: on failure the implicit transaction is discarded
(no partial state is committed) and the error is returned; a caller-supplied
transaction is left alone for the caller to decide. -/
def handleError (t : String) (implicit : Bool) (e : ConfError) (st : St) :
    St × ConfError :=
  if implicit then ({ st with txns := aremove st.txns t }, e) else (st, e)

/-- Modelled from the spec: saveData persists the working document; when the
transaction was implicit it is committed (becoming the new committed
configuration, bumping the version) and closed, otherwise the working copy
simply stays in the transaction store. -/
def saveData (t : String) (commitImplicit : Bool) (st : St) :
    St × Option ConfError :=
  if commitImplicit then
    match getTxn st t with
    | some d =>
      ({ st with committed := d, txns := aremove st.txns t,
                 version := st.version + 1 }, none)
    | none => (st, some (ConfError.txDoesNotExist t))
  else (st, none)

/-- Modelled from the spec: primitive CreateFrontend — fails when a frontend
with that name already exists, otherwise appends the section. -/
def CreateFrontend (f : Frontend) (t : String) (st : St) :
    St × List Op × Option ConfError :=
  let op := Op.createFrontend f
  match getTxn st t with
  | none => (st, [op], some (ConfError.txDoesNotExist t))
  | some d =>
    if d.frontends.any (fun fr => fr.name == f.name) then
      (st, [op], some (ConfError.alreadyExists f.name))
    else
      (setTxn st t { d with frontends := d.frontends ++ [f] }, [op], none)

/-- Modelled from the spec: primitive CreateBind — the parent frontend must
exist and no bind of that name may exist there yet; the bind is appended. -/
def CreateBind (frontend : String) (l : Listener) (t : String) (st : St) :
    St × List Op × Option ConfError :=
  let op := Op.createBind frontend l
  match getTxn st t with
  | none => (st, [op], some (ConfError.txDoesNotExist t))
  | some d =>
    if d.frontends.any (fun fr => fr.name == frontend) then
      if (agetD d.binds frontend).any (fun b => b.name == l.name) then
        (st, [op], some (ConfError.alreadyExists l.name))
      else
        (setTxn st t
          { d with binds := aset d.binds frontend (agetD d.binds frontend ++ [l]) },
         [op], none)
    else (st, [op], some (ConfError.objectDoesNotExist frontend))

/-- Modelled from the spec: primitive CreateBackend — fails when a backend
with that name already exists, otherwise appends the section. -/
def CreateBackend (b : Backend) (t : String) (st : St) :
    St × List Op × Option ConfError :=
  let op := Op.createBackend b
  match getTxn st t with
  | none => (st, [op], some (ConfError.txDoesNotExist t))
  | some d =>
    if d.backends.any (fun bk => bk.name == b.name) then
      (st, [op], some (ConfError.alreadyExists b.name))
    else
      (setTxn st t { d with backends := d.backends ++ [b] }, [op], none)

/-- Modelled from the spec: primitive CreateServer — the parent backend must
exist and no server of that name may exist there yet; appended in order. -/
def CreateServer (backend : String) (s : Server) (t : String) (st : St) :
    St × List Op × Option ConfError :=
  let op := Op.createServer backend s
  match getTxn st t with
  | none => (st, [op], some (ConfError.txDoesNotExist t))
  | some d =>
    if d.backends.any (fun bk => bk.name == backend) then
      if (agetD d.servers backend).any (fun sv => sv.name == s.name) then
        (st, [op], some (ConfError.alreadyExists s.name))
      else
        (setTxn st t
          { d with servers := aset d.servers backend (agetD d.servers backend ++ [s]) },
         [op], none)
    else (st, [op], some (ConfError.objectDoesNotExist backend))

/-- Modelled from the spec: attachConditional appends a new backend-switching
rule to the parent frontend (section 4.2 of the spec). -/
def CreateBackendSwitchingRule (frontend : String) (r : Rule) (t : String)
    (st : St) : St × List Op × Option ConfError :=
  let op := Op.createRule frontend r
  match getTxn st t with
  | none => (st, [op], some (ConfError.txDoesNotExist t))
  | some d =>
    if d.frontends.any (fun fr => fr.name == frontend) then
      (setTxn st t
        { d with rules := aset d.rules frontend (agetD d.rules frontend ++ [r]) },
       [op], none)
    else (st, [op], some (ConfError.objectDoesNotExist frontend))

/-- Modelled from the spec: primitive EditFrontend replaces the named
frontend section in place; fails when it does not exist. -/
def EditFrontend (name : String) (f : Frontend) (t : String) (st : St) :
    St × List Op × Option ConfError :=
  let op := Op.editFrontend name f
  match getTxn st t with
  | none => (st, [op], some (ConfError.txDoesNotExist t))
  | some d =>
    if d.frontends.any (fun fr => fr.name == name) then
      (setTxn st t
        { d with frontends := d.frontends.map (fun fr => if fr.name == name then f else fr) },
       [op], none)
    else (st, [op], some (ConfError.objectDoesNotExist name))

/-- Modelled from the spec: primitive EditBind replaces the named bind of the
parent frontend in place; fails when it does not exist. -/
def EditBind (name frontend : String) (l : Listener) (t : String) (st : St) :
    St × List Op × Option ConfError :=
  let op := Op.editBind name frontend l
  match getTxn st t with
  | none => (st, [op], some (ConfError.txDoesNotExist t))
  | some d =>
    let bl := (agetD d.binds frontend).map (fun b => if b.name == name then l else b)
    if (agetD d.binds frontend).any (fun b => b.name == name) then
      (setTxn st t { d with binds := aset d.binds frontend bl }, [op], none)
    else (st, [op], some (ConfError.objectDoesNotExist name))

/-- Modelled from the spec: primitive EditBackend replaces the named backend
section in place; fails when it does not exist. -/
def EditBackend (name : String) (b : Backend) (t : String) (st : St) :
    St × List Op × Option ConfError :=
  let op := Op.editBackend name b
  match getTxn st t with
  | none => (st, [op], some (ConfError.txDoesNotExist t))
  | some d =>
    if d.backends.any (fun bk => bk.name == name) then
      (setTxn st t
        { d with backends := d.backends.map (fun bk => if bk.name == name then b else bk) },
       [op], none)
    else (st, [op], some (ConfError.objectDoesNotExist name))

/-- Modelled from the spec: primitive EditServer replaces the named server of
the parent backend in place; fails when it does not exist. -/
def EditServer (name backend : String) (s : Server) (t : String) (st : St) :
    St × List Op × Option ConfError :=
  let op := Op.editServer name backend s
  match getTxn st t with
  | none => (st, [op], some (ConfError.txDoesNotExist t))
  | some d =>
    let sl := (agetD d.servers backend).map (fun sv => if sv.name == name then s else sv)
    if (agetD d.servers backend).any (fun sv => sv.name == name) then
      (setTxn st t { d with servers := aset d.servers backend sl }, [op], none)
    else (st, [op], some (ConfError.objectDoesNotExist name))

/-- Modelled from the spec: primitive DeleteBind removes the named bind from
the parent frontend; fails when it does not exist. -/
def DeleteBind (name frontend : String) (t : String) (st : St) :
    St × List Op × Option ConfError :=
  let op := Op.deleteBind name frontend
  match getTxn st t with
  | none => (st, [op], some (ConfError.txDoesNotExist t))
  | some d =>
    let bl := (agetD d.binds frontend).filter (fun b => !(b.name == name))
    if (agetD d.binds frontend).any (fun b => b.name == name) then
      (setTxn st t { d with binds := aset d.binds frontend bl }, [op], none)
    else (st, [op], some (ConfError.objectDoesNotExist name))

/-- Modelled from the spec: primitive DeleteServer removes the named server
from the parent backend; fails when it does not exist. -/
def DeleteServer (name backend : String) (t : String) (st : St) :
    St × List Op × Option ConfError :=
  let op := Op.deleteServer name backend
  match getTxn st t with
  | none => (st, [op], some (ConfError.txDoesNotExist t))
  | some d =>
    let sl := (agetD d.servers backend).filter (fun sv => !(sv.name == name))
    if (agetD d.servers backend).any (fun sv => sv.name == name) then
      (setTxn st t { d with servers := aset d.servers backend sl }, [op], none)
    else (st, [op], some (ConfError.objectDoesNotExist name))

/-- Modelled from the spec: primitive DeleteBackend removes the named backend
section together with its servers; fails when it does not exist. -/
def DeleteBackend (name : String) (t : String) (st : St) :
    St × List Op × Option ConfError :=
  let op := Op.deleteBackend name
  match getTxn st t with
  | none => (st, [op], some (ConfError.txDoesNotExist t))
  | some d =>
    if d.backends.any (fun bk => bk.name == name) then
      (setTxn st t
        { d with backends := d.backends.filter (fun bk => !(bk.name == name)),
                 servers := aremove d.servers name },
       [op], none)
    else (st, [op], some (ConfError.objectDoesNotExist name))

/-- Modelled from the spec: primitive DeleteFrontend removes the named
frontend section together with its binds and switching rules. -/
def DeleteFrontend (name : String) (t : String) (st : St) :
    St × List Op × Option ConfError :=
  let op := Op.deleteFrontend name
  match getTxn st t with
  | none => (st, [op], some (ConfError.txDoesNotExist t))
  | some d =>
    if d.frontends.any (fun fr => fr.name == name) then
      (setTxn st t
        { d with frontends := d.frontends.filter (fun fr => !(fr.name == name)),
                 binds := aremove d.binds name,
                 rules := aremove d.rules name },
       [op], none)
    else (st, [op], some (ConfError.objectDoesNotExist name))

/-- Modelled from the spec: detaching a switching rule is by ordinal position
within the parent frontend's rule list. -/
def DeleteBackendSwitchingRule (idx : Nat) (frontend : String) (t : String)
    (st : St) : St × List Op × Option ConfError :=
  let op := Op.deleteRule idx frontend
  match getTxn st t with
  | none => (st, [op], some (ConfError.txDoesNotExist t))
  | some d =>
    if idx < (agetD d.rules frontend).length then
      (setTxn st t
        { d with rules := aset d.rules frontend ((agetD d.rules frontend).eraseIdx idx) },
       [op], none)
    else (st, [op], some (ConfError.objectDoesNotExist frontend))

def Doc.findFrontend (d : Doc) (name : String) : Option Frontend :=
  d.frontends.find? (fun fr => fr.name == name)

def Doc.findBackend (d : Doc) (name : String) : Option Backend :=
  d.backends.find? (fun bk => bk.name == name)

/-- c.checkSectionExists for the frontends section. -/
def checkSectionExists (name : String) (p : Doc) : Bool :=
  p.frontends.any (fun fr => fr.name == name)

/-- Modelled from the spec: reading the switching rules of a frontend; the
parent section must exist. -/
def parseBackendSwitchingRules (frontend : String) (p : Doc) :
    Except ConfError (List Rule) :=
  if checkSectionExists frontend p then Except.ok (agetD p.rules frontend)
  else Except.error (ConfError.objectDoesNotExist frontend)

/-- c.parseFarm: hydrate the backend of that name as a SiteFarm carrying the
given attachment data; nothing when the backend section does not exist. -/
def parseFarm (name useAs cond condTest : String) (p : Doc) : Option SiteFarm :=
  match p.findBackend name with
  | none => none
  | some b =>
    some { useAs := useAs, cond := cond, condTest := condTest, mode := b.mode,
           name := b.name, forwardfor := b.forwardfor, balance := b.balance,
           servers := agetD p.servers name }

/-- c.parseSite: rebuild the Site aggregate of the frontend named s. -/
def parseSite (s : String) (p : Doc) : Option Site :=
  match p.findFrontend s with
  | none => none
  | some fr =>
    let ls := agetD p.binds s
    let defFarms :=
      if fr.defaultBackend ≠ "" then
        match parseFarm fr.defaultBackend "default" "" "" p with
        | some farm => [farm]
        | none => []
      else []
    let condFarms := (agetD p.rules s).filterMap
      (fun ub => parseFarm ub.name "conditional" ub.cond ub.condTest p)
    some { name := s,
           service := some { httpConnectionMode := fr.httpConnectionMode,
                             maxconn := fr.maxconn, mode := fr.mode,
                             listeners := ls },
           farms := defFarms ++ condFarms }

/-- c.parseSites: every frontend that parses as a Site, in section order. -/
def parseSites (p : Doc) : List Site :=
  (p.frontends.map (fun fr => fr.name)).filterMap (fun s => parseSite s p)

/-- c.GetSite: version plus the requested site, or ObjectDoesNotExist. -/
def GetSite (name txid : String) (st : St) :
    List Op × Except ConfError (Nat × Site) :=
  let ops := [Op.siteRead name txid]
  let missing := ConfError.objectDoesNotExist ("Site " ++ name ++ " does not exist")
  match GetParser txid st with
  | Except.error e => (ops, Except.error e)
  | Except.ok p =>
    if checkSectionExists name p then
      match parseSite name p with
      | none => (ops, Except.error missing)
      | some site => (ops, Except.ok (GetVersion st, site))
    else (ops, Except.error missing)

/-- c.GetSites: version plus all sites. -/
def GetSites (txid : String) (st : St) :
    List Op × Except ConfError (Nat × List Site) :=
  ([Op.sitesRead txid],
   match GetParser txid st with
   | Except.error e => Except.error e
   | Except.ok p => Except.ok (GetVersion st, parseSites p))

/-- serializeServiceToFrontend: always a frontend carrying the site name; the
service fields are copied only when the service is present (Go nil check). -/
def serializeServiceToFrontend (service : Option SiteService) (name : String) :
    Option Frontend :=
  match service with
  | none =>
    some { name := name, mode := "", maxconn := none, httpConnectionMode := "",
           defaultBackend := "" }
  | some s =>
    some { name := name, mode := s.mode, maxconn := s.maxconn,
           httpConnectionMode := s.httpConnectionMode, defaultBackend := "" }

/-- serializeFarmToBackend: the backend carrying the farm's backend fields.
The Go function always returns a fresh non-nil pointer, so the callers' nil
checks on its result can never fire and the model makes it total. -/
def serializeFarmToBackend (farm : SiteFarm) : Backend :=
  { name := farm.name, mode := farm.mode, forwardfor := farm.forwardfor,
    balance := farm.balance }

/-- The name sanitization CreateSite applies to an unnamed listener:
l.Name = l.Address + ":" + strconv.FormatInt(*l.Port, 10). Dereferencing a
nil Port panics, hence the Option result. -/
def sanitizeListener (l : Listener) : Option Listener :=
  if l.name = "" then
    match l.port with
    | none => none
    | some pt => some { l with name := l.address ++ ":" ++ toString pt }
  else some l

/-- The name sanitization CreateSite applies to an unnamed server. -/
def sanitizeServer (s : Server) : Option Server :=
  if s.name = "" then
    match s.port with
    | none => none
    | some pt => some { s with name := s.address ++ ":" ++ toString pt }
  else some s

/-- List wrapper for an optional error, for collecting into res. -/
def errList : Option ConfError → List ConfError
  | none => []
  | some e => [e]

/-- The scan of removeUseFarm: the ordinal position of the first rule whose
target is the given backend. -/
def firstRuleIdx (backend : String) : List Rule → Option Nat
  | [] => none
  | uf :: ufs =>
    if uf.name == backend then some 0
    else (firstRuleIdx backend ufs).map (fun i => i + 1)

/-- c.removeUseFarm: find the first switching rule of the frontend whose
target is the backend and delete it by ordinal position; nothing when no
rule matches. -/
def removeUseFarm (frontend backend : String) (t : String) (st : St) :
    St × List Op × Option ConfError :=
  match getTxn st t with
  | none => (st, [], some (ConfError.txDoesNotExist t))
  | some p =>
    match parseBackendSwitchingRules frontend p with
    | Except.error e => (st, [], some e)
    | Except.ok ufs =>
      match firstRuleIdx backend ufs with
      | some i => DeleteBackendSwitchingRule i frontend t st
      | none => (st, [], none)

/-- c.addDefaultBckToFrontend: re-read the frontend, set its default_backend
pointer and write it back. -/
def addDefaultBckToFrontend (fName bName : String) (t : String) (st : St) :
    St × List Op × Option ConfError :=
  match getTxn st t with
  | none => (st, [], some (ConfError.txDoesNotExist t))
  | some p =>
    match p.findFrontend fName with
    | none => (st, [], some (ConfError.objectDoesNotExist fName))
    | some fr => EditFrontend fName { fr with defaultBackend := bName } t st

/-- c.removeDefaultBckToFrontend: re-read the frontend, clear its
default_backend pointer and write it back. -/
def removeDefaultBckToFrontend (fName : String) (t : String) (st : St) :
    St × List Op × Option ConfError :=
  match getTxn st t with
  | none => (st, [], some (ConfError.txDoesNotExist t))
  | some p =>
    match p.findFrontend fName with
    | none => (st, [], some (ConfError.objectDoesNotExist fName))
    | some fr => EditFrontend fName { fr with defaultBackend := "" } t st

/-- c.editService: re-read the frontend, copy the service fields onto it
(dereferencing a nil service panics) and write it back. -/
def editService (name : String) (service : Option SiteService) (t : String)
    (st : St) : St × List Op × Out (Option ConfError) :=
  match getTxn st t with
  | none => (st, [], Out.ok (some (ConfError.txDoesNotExist t)))
  | some p =>
    match p.findFrontend name with
    | none => (st, [], Out.ok (some (ConfError.objectDoesNotExist name)))
    | some fr =>
      match service with
      | none => (st, [], Out.panicked)
      | some svc =>
        let fr' := { fr with httpConnectionMode := svc.httpConnectionMode,
                             maxconn := svc.maxconn, mode := svc.mode }
        let r := EditFrontend name fr' t st
        (r.1, r.2.1, Out.ok r.2.2)

/-- c.editFarm: re-read the backend, copy the farm's backend fields onto it
and write it back. -/
def editFarm (name : String) (farm : SiteFarm) (t : String) (st : St) :
    St × List Op × Option ConfError :=
  match getTxn st t with
  | none => (st, [], some (ConfError.txDoesNotExist t))
  | some p =>
    match p.findBackend name with
    | none => (st, [], some (ConfError.objectDoesNotExist name))
    | some bk =>
      let bk' := { bk with mode := farm.mode, forwardfor := farm.forwardfor,
                           balance := farm.balance }
      EditBackend name bk' t st

/-- The error message of createBckFrontendRels for a conditional farm with a
missing predicate. -/
def condNoPredMsg (name : String) : String :=
  "Backend " ++ name ++ " set as conditional but no conditions provided"

/-- c.createBckFrontendRels: attach a farm to the frontend. A default farm
sets the default_backend pointer (first detaching its switching rule when
editing); any other farm needs a predicate and gets a switching rule. The
collected failures are wrapped in a composite error. -/
def createBckFrontendRels (name : String) (b : SiteFarm) (edit : Bool)
    (t : String) (st : St) : St × List Op × Option ConfError :=
  if b.useAs = "default" then
    let r1 := if edit then removeUseFarm name b.name t st else (st, [], none)
    let r2 := addDefaultBckToFrontend name b.name t r1.1
    let res := errList r1.2.2 ++ errList r2.2.2
    (r2.1, r1.2.1 ++ r2.2.1,
     if res.isEmpty then none else some (ConfError.composite res))
  else
    if b.cond = "" ∨ b.condTest = "" then
      (st, [], some (ConfError.composite [ConfError.generic (condNoPredMsg b.name)]))
    else
      let uf : Rule := { id := 0, name := b.name, cond := b.cond,
                         condTest := b.condTest }
      let r := CreateBackendSwitchingRule name uf t st
      (r.1, r.2.1,
       match r.2.2 with
       | some e0 => some (ConfError.composite [e0])
       | none => none)

/-- The listener-creation loop of CreateSite: sanitize each unnamed listener
(a nil Port panics) and issue CreateBind, collecting failures in order. -/
def createSiteBinds (siteName t : String) :
    List Listener → St → St × List Op × Out (List ConfError)
  | [], st => (st, [], Out.ok [])
  | l :: ls, st =>
    match sanitizeListener l with
    | none => (st, [], Out.panicked)
    | some l' =>
      let r := CreateBind siteName l' t st
      match createSiteBinds siteName t ls r.1 with
      | (st2, ops2, Out.panicked) => (st2, r.2.1 ++ ops2, Out.panicked)
      | (st2, ops2, Out.ok errs) =>
        (st2, r.2.1 ++ ops2, Out.ok (errList r.2.2 ++ errs))

/-- The server-creation loop of CreateSite over one farm's servers: sanitize
unnamed servers and issue CreateServer, collecting failures in order. -/
def createSiteServers (bName t : String) :
    List Server → St → St × List Op × Out (List ConfError)
  | [], st => (st, [], Out.ok [])
  | s :: ss, st =>
    match sanitizeServer s with
    | none => (st, [], Out.panicked)
    | some s' =>
      let r := CreateServer bName s' t st
      match createSiteServers bName t ss r.1 with
      | (st2, ops2, Out.panicked) => (st2, r.2.1 ++ ops2, Out.panicked)
      | (st2, ops2, Out.ok errs) =>
        (st2, r.2.1 ++ ops2, Out.ok (errList r.2.2 ++ errs))

/-- The farm loop of CreateSite: create the backend, its servers, then the
frontend-backend relation; failures are collected, never short-circuited. -/
def createSiteFarms (siteName t : String) :
    List SiteFarm → St → St × List Op × Out (List ConfError)
  | [], st => (st, [], Out.ok [])
  | b :: bs, st =>
    let backend := serializeFarmToBackend b
    let r1 := CreateBackend backend t st
    match createSiteServers b.name t b.servers r1.1 with
    | (st2, ops2, Out.panicked) => (st2, r1.2.1 ++ ops2, Out.panicked)
    | (st2, ops2, Out.ok errs2) =>
      let r3 := createBckFrontendRels siteName b false t st2
      match createSiteFarms siteName t bs r3.1 with
      | (st4, ops4, Out.panicked) =>
        (st4, r1.2.1 ++ ops2 ++ r3.2.1 ++ ops4, Out.panicked)
      | (st4, ops4, Out.ok errs4) =>
        (st4, r1.2.1 ++ ops2 ++ r3.2.1 ++ ops4,
         Out.ok (errList r1.2.2 ++ errs2 ++ errList r3.2.2 ++ errs4))

/-- c.CreateSite after the validation gate: open/attach the transaction,
create the frontend (never skipped, since serializeServiceToFrontend never
returns nil), the binds (dereferencing a nil Service panics here), the
backends with their servers and relations; then either aggregate the
collected failures through handleError or save. -/
def createSiteMain (data : Site) (txid : String) (version : Nat) (st : St) :
    St × List Op × Out (Option ConfError) :=
  match loadDataForChange txid version st with
  | (st1, ops1, Except.error e) => (st1, ops1, Out.ok (some e))
  | (st1, ops1, Except.ok t) =>
    let r2 :=
      match serializeServiceToFrontend data.service data.name with
      | none => (st1, ([] : List Op), (none : Option ConfError))
      | some frontend => CreateFrontend frontend t st1
    match data.service with
    | none => (r2.1, ops1 ++ r2.2.1, Out.panicked)
    | some svc =>
      match createSiteBinds data.name t svc.listeners r2.1 with
      | (st3, ops3, Out.panicked) => (st3, ops1 ++ r2.2.1 ++ ops3, Out.panicked)
      | (st3, ops3, Out.ok errsB) =>
        match createSiteFarms data.name t data.farms st3 with
        | (st4, ops4, Out.panicked) =>
          (st4, ops1 ++ r2.2.1 ++ ops3 ++ ops4, Out.panicked)
        | (st4, ops4, Out.ok errsF) =>
          let res := errList r2.2.2 ++ errsB ++ errsF
          let ops := ops1 ++ r2.2.1 ++ ops3 ++ ops4
          if res.isEmpty then
            let r5 := saveData t (txid = "") st4
            (r5.1, ops, Out.ok r5.2)
          else
            let r5 := handleError t (txid = "") (ConfError.composite res) st4
            (r5.1, ops, Out.ok (some r5.2))

/-- c.CreateSite: validate first when client-side validation is on, then the
main reconciliation pass. -/
def CreateSite (data : Site) (txid : String) (version : Nat) (st : St) :
    St × List Op × Out (Option ConfError) :=
  if st.useValidation then
    match st.validateErr data with
    | some msg => (st, [], Out.ok (some (ConfError.validation msg)))
    | none => createSiteMain data txid version st
  else createSiteMain data txid version st

/-- The backend-deletion loop of DeleteSite. -/
def deleteSiteBackends (t : String) :
    List SiteFarm → St → St × List Op × List ConfError
  | [], st => (st, [], [])
  | b :: bs, st =>
    let r := DeleteBackend b.name t st
    let rest := deleteSiteBackends t bs r.1
    (rest.1, r.2.1 ++ rest.2.1, errList r.2.2 ++ rest.2.2)

/-- c.DeleteSite: read the current site through the working transaction id
returned by loadDataForChange, delete the frontend and every farm's backend,
aggregating failures. -/
def DeleteSite (name txid : String) (version : Nat) (st : St) :
    St × List Op × Option ConfError :=
  match loadDataForChange txid version st with
  | (st1, ops1, Except.error e) => (st1, ops1, some e)
  | (st1, ops1, Except.ok t) =>
    match GetSite name t st1 with
    | (rops, Except.error e) => (st1, ops1 ++ rops, some e)
    | (rops, Except.ok (_, site)) =>
      let r2 := DeleteFrontend site.name t st1
      let r3 := deleteSiteBackends t site.farms r2.1
      let res := errList r2.2.2 ++ r3.2.2
      let ops := ops1 ++ rops ++ r2.2.1 ++ r3.2.1
      if res.isEmpty then
        let r4 := saveData t (txid = "") r3.1
        (r4.1, ops, r4.2)
      else
        let r4 := handleError t (txid = "") (ConfError.composite res) r3.1
        (r4.1, ops, some r4.2)

/-- EditSite listener reconciliation, first loop: for each desired listener
present by name in the current service, edit it when it differs; for each
absent one, sanitize the name (nil Port panics) and create it. -/
def editListenersAdd (dataName t : String) (confLs : List Listener) :
    List Listener → St → St × List Op × Out (List ConfError)
  | [], st => (st, [], Out.ok [])
  | l :: ls, st =>
    match confLs.find? (fun confL => confL.name == l.name) with
    | some confL =>
      let r :=
        if l = confL then (st, ([] : List Op), (none : Option ConfError))
        else EditBind l.name dataName l t st
      match editListenersAdd dataName t confLs ls r.1 with
      | (st2, ops2, Out.panicked) => (st2, r.2.1 ++ ops2, Out.panicked)
      | (st2, ops2, Out.ok errs) =>
        (st2, r.2.1 ++ ops2, Out.ok (errList r.2.2 ++ errs))
    | none =>
      match sanitizeListener l with
      | none => (st, [], Out.panicked)
      | some l' =>
        let r := CreateBind dataName l' t st
        match editListenersAdd dataName t confLs ls r.1 with
        | (st2, ops2, Out.panicked) => (st2, r.2.1 ++ ops2, Out.panicked)
        | (st2, ops2, Out.ok errs) =>
          (st2, r.2.1 ++ ops2, Out.ok (errList r.2.2 ++ errs))

/-- EditSite listener reconciliation, second loop: delete every current
listener whose name no longer appears in the desired service. -/
def editListenersDel (dataName t : String) (dataLs : List Listener) :
    List Listener → St → St × List Op × List ConfError
  | [], st => (st, [], [])
  | confL :: ls, st =>
    if dataLs.any (fun l => l.name == confL.name) then
      editListenersDel dataName t dataLs ls st
    else
      let r := DeleteBind confL.name dataName t st
      let rest := editListenersDel dataName t dataLs ls r.1
      (rest.1, r.2.1 ++ rest.2.1, errList r.2.2 ++ rest.2.2)

/-- EditSite service phase: when the desired service differs from the current
one, edit the frontend (through data.Name) and reconcile the listeners.
Dereferencing a nil service on either side panics. -/
def editServicePhase (dataName : String) (dsvc csvc : Option SiteService)
    (t : String) (st : St) : St × List Op × Out (List ConfError) :=
  if dsvc = csvc then (st, [], Out.ok [])
  else
    let r1 := editService dataName dsvc t st
    match r1.2.2 with
    | Out.panicked => (r1.1, r1.2.1, Out.panicked)
    | Out.ok e1 =>
      match csvc, dsvc with
      | some cs, some ds =>
        if cs.listeners = ds.listeners then (r1.1, r1.2.1, Out.ok (errList e1))
        else
          match editListenersAdd dataName t cs.listeners ds.listeners r1.1 with
          | (st2, ops2, Out.panicked) => (st2, r1.2.1 ++ ops2, Out.panicked)
          | (st2, ops2, Out.ok errs2) =>
            let r3 := editListenersDel dataName t ds.listeners cs.listeners st2
            (r3.1, r1.2.1 ++ ops2 ++ r3.2.1,
             Out.ok (errList e1 ++ errs2 ++ r3.2.2))
      | _, _ => (r1.1, r1.2.1, Out.panicked)

/-- EditSite server reconciliation for a changed farm, first loop: edit the
servers present by name in the current farm when they differ, create the
absent ones with their name as given (no sanitization here). -/
def editFarmServersAdd (bName t : String) (confSrvs : List Server) :
    List Server → St → St × List Op × List ConfError
  | [], st => (st, [], [])
  | srv :: ss, st =>
    let r :=
      match confSrvs.find? (fun confSrv => confSrv.name == srv.name) with
      | some confSrv =>
        if srv = confSrv then (st, ([] : List Op), (none : Option ConfError))
        else EditServer srv.name bName srv t st
      | none => CreateServer bName srv t st
    let rest := editFarmServersAdd bName t confSrvs ss r.1
    (rest.1, r.2.1 ++ rest.2.1, errList r.2.2 ++ rest.2.2)

/-- EditSite server reconciliation, second loop: delete every current server
whose name no longer appears in the desired farm. -/
def editFarmServersDel (bName t : String) (dataSrvs : List Server) :
    List Server → St → St × List Op × List ConfError
  | [], st => (st, [], [])
  | confSrv :: ss, st =>
    if dataSrvs.any (fun srv => srv.name == confSrv.name) then
      editFarmServersDel bName t dataSrvs ss st
    else
      let r := DeleteServer confSrv.name bName t st
      let rest := editFarmServersDel bName t dataSrvs ss r.1
      (rest.1, r.2.1 ++ rest.2.1, errList r.2.2 ++ rest.2.2)

/-- EditSite server creation for a newly added farm: plain CreateServer for
each server, with the name exactly as given (no sanitization here). -/
def editNewFarmServers (bName t : String) :
    List Server → St → St × List Op × List ConfError
  | [], st => (st, [], [])
  | s :: ss, st =>
    let r := CreateServer bName s t st
    let rest := editNewFarmServers bName t ss r.1
    (rest.1, r.2.1 ++ rest.2.1, errList r.2.2 ++ rest.2.2)

/-- The message of the EditSite multiple-default rejection. -/
def multipleDefaultMsg (name : String) : String :=
  "Multiple default backends found in site: " ++ name

/-- Outcome of the EditSite farm loop: either the non-aggregated early
return on a second default farm, or the selected default backend plus the
collected failures. -/
inductive FarmsOut where
  | early (e : ConfError)
  | done (defaultBck : String) (errs : List ConfError)

/-- EditSite farm loop over the desired farms: create farms absent from the
current site (backend, raw-named servers, relation), edit the present ones
(reattach on UseAs change, backend fields, server reconciliation), enforcing
along the way that at most one desired farm is the default — the violation
returns immediately without aggregation. -/
def editFarmsLoop (name t : String) (confFarms : List SiteFarm) :
    List SiteFarm → String → St → St × List Op × FarmsOut
  | [], defaultBck, st => (st, [], FarmsOut.done defaultBck [])
  | b :: bs, defaultBck, st =>
    match confFarms.find? (fun confB => confB.name == b.name) with
    | none =>
      let backend := serializeFarmToBackend b
      let r1 := CreateBackend backend t st
      let r2 := editNewFarmServers b.name t b.servers r1.1
      if b.useAs = "default" ∧ defaultBck ≠ "" then
        (r2.1, r1.2.1 ++ r2.2.1,
         FarmsOut.early (ConfError.validation (multipleDefaultMsg name)))
      else
        let defaultBck' := if b.useAs = "default" then b.name else defaultBck
        let r3 := createBckFrontendRels name b false t r2.1
        match editFarmsLoop name t confFarms bs defaultBck' r3.1 with
        | (st4, ops4, FarmsOut.early e) =>
          (st4, r1.2.1 ++ r2.2.1 ++ r3.2.1 ++ ops4, FarmsOut.early e)
        | (st4, ops4, FarmsOut.done dft errs) =>
          (st4, r1.2.1 ++ r2.2.1 ++ r3.2.1 ++ ops4,
           FarmsOut.done dft (errList r1.2.2 ++ r2.2.2 ++ errList r3.2.2 ++ errs))
    | some confB =>
      if b.useAs = "default" ∧ defaultBck ≠ "" then
        (st, [], FarmsOut.early (ConfError.validation (multipleDefaultMsg name)))
      else
        let defaultBck' := if b.useAs = "default" then b.name else defaultBck
        if b = confB then editFarmsLoop name t confFarms bs defaultBck' st
        else
          let r1 :=
            if b.useAs ≠ confB.useAs then createBckFrontendRels name b true t st
            else (st, [], none)
          let r2 := editFarm b.name b t r1.1
          let r3 := editFarmServersAdd b.name t confB.servers b.servers r2.1
          let r4 := editFarmServersDel b.name t b.servers confB.servers r3.1
          match editFarmsLoop name t confFarms bs defaultBck' r4.1 with
          | (st5, ops5, FarmsOut.early e) =>
            (st5, r1.2.1 ++ r2.2.1 ++ r3.2.1 ++ r4.2.1 ++ ops5, FarmsOut.early e)
          | (st5, ops5, FarmsOut.done dft errs) =>
            (st5, r1.2.1 ++ r2.2.1 ++ r3.2.1 ++ r4.2.1 ++ ops5,
             FarmsOut.done dft
               (errList r1.2.2 ++ errList r2.2.2 ++ r3.2.2 ++ r4.2.2 ++ errs))

/-- EditSite farm deletion loop: every current farm absent from the desired
site loses its switching rule first when conditional, then its backend. -/
def editFarmsDel (name t : String) (dataFarms : List SiteFarm) :
    List SiteFarm → St → St × List Op × List ConfError
  | [], st => (st, [], [])
  | b :: bs, st =>
    if dataFarms.any (fun dataB => dataB.name == b.name) then
      editFarmsDel name t dataFarms bs st
    else
      let r1 :=
        if b.useAs = "conditional" then removeUseFarm name b.name t st
        else (st, [], none)
      let r2 := DeleteBackend b.name t r1.1
      let rest := editFarmsDel name t dataFarms bs r2.1
      (rest.1, r1.2.1 ++ r2.2.1 ++ rest.2.1,
       errList r1.2.2 ++ errList r2.2.2 ++ rest.2.2)

/-- c.EditSite after the validation gate: read the current site with the
caller-supplied transaction id, reconcile the service, then the farms (only
when they differ as whole collections), clear the default-backend pointer
when no desired farm was selected as default, and aggregate failures. -/
def editSiteMain (name : String) (data : Site) (txid : String) (version : Nat)
    (st : St) : St × List Op × Out (Option ConfError) :=
  match loadDataForChange txid version st with
  | (st1, ops1, Except.error e) => (st1, ops1, Out.ok (some e))
  | (st1, ops1, Except.ok t) =>
    match GetSite name txid st1 with
    | (rops, Except.error e) => (st1, ops1 ++ rops, Out.ok (some e))
    | (rops, Except.ok (_, confS)) =>
      match editServicePhase data.name data.service confS.service t st1 with
      | (st2, ops2, Out.panicked) => (st2, ops1 ++ rops ++ ops2, Out.panicked)
      | (st2, ops2, Out.ok errsS) =>
        let farmsR :=
          if confS.farms = data.farms then
            (st2, ([] : List Op), FarmsOut.done "" [])
          else
            match editFarmsLoop name t confS.farms data.farms "" st2 with
            | (st3, ops3, FarmsOut.early e) => (st3, ops3, FarmsOut.early e)
            | (st3, ops3, FarmsOut.done dft errsF) =>
              let r4 := editFarmsDel name t data.farms confS.farms st3
              (r4.1, ops3 ++ r4.2.1, FarmsOut.done dft (errsF ++ r4.2.2))
        match farmsR with
        | (st3, ops3, FarmsOut.early e) =>
          (st3, ops1 ++ rops ++ ops2 ++ ops3, Out.ok (some e))
        | (st3, ops3, FarmsOut.done defaultBck errsF) =>
          let r5 :=
            if defaultBck = "" then removeDefaultBckToFrontend name t st3
            else (st3, [], none)
          let res := errsS ++ errsF ++ errList r5.2.2
          let ops := ops1 ++ rops ++ ops2 ++ ops3 ++ r5.2.1
          if res.isEmpty then
            let r6 := saveData t (txid = "") r5.1
            (r6.1, ops, Out.ok r6.2)
          else
            let r6 := handleError t (txid = "") (ConfError.composite res) r5.1
            (r6.1, ops, Out.ok (some r6.2))

/-- c.EditSite: validate first when client-side validation is on, then the
main reconciliation pass. -/
def EditSite (name : String) (data : Site) (txid : String) (version : Nat)
    (st : St) : St × List Op × Out (Option ConfError) :=
  if st.useValidation then
    match st.validateErr data with
    | some msg => (st, [], Out.ok (some (ConfError.validation msg)))
    | none => editSiteMain name data txid version st
  else editSiteMain name data txid version st

/-- The farm shape claim C9 specifies for a Site read from document p, as
(UseAs, Name) tags: the default farm first — present exactly when the
frontend's default-backend pointer is non-empty and resolves to an existing
backend — then one conditional farm per switching rule whose target
resolves, in rule order. Written from the claim, to be compared with what
parseSite produces. -/
def specFarmTags (p : Doc) (fname : String) : List (String × String) :=
  (match p.findFrontend fname with
   | none => []
   | some fr =>
     if fr.defaultBackend ≠ "" ∧ (p.findBackend fr.defaultBackend).isSome then
       [("default", fr.defaultBackend)]
     else []) ++
  ((agetD p.rules fname).filter (fun ub => (p.findBackend ub.name).isSome)).map
    (fun ub => ("conditional", ub.name))

/-- Listeners after CreateSite's auto-naming pass. -/
def sanL (ls : List Listener) : List Listener :=
  ls.map (fun l => (sanitizeListener l).getD l)

/-- Servers after CreateSite's auto-naming pass. -/
def sanS (ss : List Server) : List Server :=
  ss.map (fun s => (sanitizeServer s).getD s)

/-- The switching rule createBckFrontendRels builds for a conditional farm. -/
def ruleOf (f : SiteFarm) : Rule :=
  { id := 0, name := f.name, cond := f.cond, condTest := f.condTest }

/-- A service as a Create-then-Get round trip returns it: unnamed listeners
auto-named. -/
def normService (svc : SiteService) : SiteService :=
  { svc with listeners := sanL svc.listeners }

/-- A farm as a Create-then-Get round trip returns it: servers auto-named
and the predicate fields cleared on the default farm (parseSite reads the
default farm with empty Cond/CondTest). -/
def normFarm (f : SiteFarm) : SiteFarm :=
  { f with
    cond := if f.useAs = "default" then "" else f.cond,
    condTest := if f.useAs = "default" then "" else f.condTest,
    servers := sanS f.servers }

/-- The site a successful Create-then-Get round trip returns. -/
def expectedSite (S : Site) : Site :=
  { S with service := S.service.map normService, farms := S.farms.map normFarm }

/-- The desired site with only the claim's stated modulo applied: unnamed
Listeners and Servers renamed to address:port, nothing else changed. -/
def autoNamedSite (S : Site) : Site :=
  { S with
    service := S.service.map normService,
    farms := S.farms.map (fun f => { f with servers := sanS f.servers }) }

/-- All farms of the list are conditional with a nonempty predicate. -/
def CondFarms (fs : List SiteFarm) : Prop :=
  ∀ f ∈ fs, f.useAs = "conditional" ∧ f.cond ≠ "" ∧ f.condTest ≠ ""

/-- The farm-list shape needed for a faithful round trip: either every farm
is conditional, or the single default farm (with a nonempty name) comes
first followed by conditional farms. -/
def FarmsShape : List SiteFarm → Prop
  | [] => True
  | d :: rest =>
    (d.useAs = "default" ∧ d.name ≠ "" ∧ CondFarms rest) ∨ CondFarms (d :: rest)

/-- Round-trip well-formedness of a desired site: a service is present,
every unnamed listener and server carries a port (so auto-naming does not
panic), the auto-named listener names, the farm names, and the auto-named
server names within each farm are duplicate-free, and the farm list is a
default-first shape. -/
def RoundTripWf (S : Site) : Prop :=
  (∃ svc, S.service = some svc ∧
    (∀ l ∈ svc.listeners, (sanitizeListener l).isSome) ∧
    ((sanL svc.listeners).map (fun l => l.name)).Nodup) ∧
  (S.farms.map (fun f => f.name)).Nodup ∧
  (∀ f ∈ S.farms, (∀ s ∈ f.servers, (sanitizeServer s).isSome) ∧
    ((sanS f.servers).map (fun s => s.name)).Nodup) ∧
  FarmsShape S.farms

/-! Concrete configurations used to instantiate the theorems below. -/

/-- A client over an empty committed configuration, validation off. -/
def stEmpty : St :=
  { committed := Doc.empty, txns := [], freshIdx := 0, version := 0,
    useValidation := false, validateErr := fun _ => none }

/-- The state right after CreateSite's implicit load from stEmpty: the fresh
transaction tx0 holds a copy of the empty committed configuration. -/
def stTx0 : St := { stEmpty with txns := [("tx0", Doc.empty)], freshIdx := 1 }

/-- The frontend serializeServiceToFrontend builds from a present service. -/
def frontendOf (svc : SiteService) (name : String) : Frontend :=
  { name := name, mode := svc.mode, maxconn := svc.maxconn,
    httpConnectionMode := svc.httpConnectionMode, defaultBackend := "" }

/-- An otherwise empty working document holding one frontend. -/
def docFr (fr : Frontend) : Doc := { Doc.empty with frontends := [fr] }

/-- A client whose validator rejects every site, validation on. -/
def stRejecting : St :=
  { committed := Doc.empty, txns := [], freshIdx := 0, version := 0,
    useValidation := true, validateErr := fun _ => some "invalid" }

/-- Shorthand for a farm whose non-attachment fields are fixed. -/
def mkFarm (nm useAs cond condTest : String) (srvs : List Server) : SiteFarm :=
  { useAs := useAs, cond := cond, condTest := condTest, mode := "http",
    name := nm, forwardfor := "", balance := "", servers := srvs }

/-- A service with no listeners. -/
def svcPlain : SiteService :=
  { httpConnectionMode := "", maxconn := none, mode := "http", listeners := [] }

/-- The example site of the spec: one unnamed listener, one default farm with
one unnamed server. -/
def exampleSite : Site :=
  { name := "web",
    service := some { httpConnectionMode := "", maxconn := none, mode := "http",
                      listeners := [{ name := "", address := "0.0.0.0",
                                      port := some 80 }] },
    farms := [mkFarm "app1" "default" "" ""
                [{ name := "", address := "10.0.0.1", port := some 8080 }]] }

/-- A desired site with two default farms. -/
def twoDefaultSite : Site :=
  { name := "web", service := some svcPlain,
    farms := [mkFarm "a" "default" "" "" [], mkFarm "b" "default" "" "" []] }

/-- A committed configuration holding one bare frontend named web. -/
def bareFrontendDoc : Doc :=
  { Doc.empty with
    frontends := [{ name := "web", mode := "http", maxconn := none,
                    httpConnectionMode := "", defaultBackend := "" }] }

/-- A client whose committed configuration is the bare web frontend. -/
def stBareFrontend : St := { stEmpty with committed := bareFrontendDoc }

/-- A committed configuration holding the site w: a frontend with default
backend a, the backend a with no servers. -/
def smallSiteDoc : Doc :=
  { frontends := [{ name := "w", mode := "http", maxconn := none,
                    httpConnectionMode := "", defaultBackend := "a" }],
    backends := [{ name := "a", mode := "http", forwardfor := "", balance := "" }],
    binds := [], servers := [("a", [])], rules := [] }

/-- A client whose committed configuration is the small site w. -/
def stSmallSite : St := { stEmpty with committed := smallSiteDoc }

/-- The site w as GetSite returns it from the small configuration. -/
def smallSiteRead : Site :=
  { name := "w", service := some svcPlain,
    farms := [mkFarm "a" "default" "" "" []] }

/-- A desired site listing a conditional farm before the default farm. -/
def swappedSite : Site :=
  { name := "web", service := some svcPlain,
    farms := [mkFarm "c" "conditional" "x" "y" [], mkFarm "d" "default" "" "" []] }

/-- A desired site with three conditional farms, the middle one missing its
predicate. -/
def condBadSite : Site :=
  { name := "web", service := some svcPlain,
    farms := [mkFarm "x" "conditional" "c1" "t1" [], mkFarm "bad" "conditional" "" "t" [], mkFarm "y" "conditional" "c2" "t2" []] }

/-- A desired site for w adding one unnamed server to farm a. -/
def addServerSite : Site :=
  { name := "w", service := some svcPlain,
    farms := [mkFarm "a" "default" "" "" [{ name := "", address := "1.2.3.4", port := some 80 }]] }

/-- A working document with three switching rules on frontend w, the second
and third targeting backend zz. -/
def rulesDoc : Doc :=
  { smallSiteDoc with rules := [("w",
      [{ id := 0, name := "r1", cond := "c", condTest := "t" },
       { id := 0, name := "zz", cond := "c", condTest := "t" },
       { id := 0, name := "zz", cond := "d", condTest := "u" }])] }

/-- A client with an open transaction T over the rules document. -/
def stRules : St := { stEmpty with txns := [("T", rulesDoc)] }

/-! ### Helper lemmas -/

theorem ite_snd_fst {α β γ : Type} (c : Prop) [Decidable c] (a b : α)
    (o : β) (x y : γ) : (if c then (a, o, x) else (b, o, y)).2.1 = o := by
  split <;> rfl

theorem CreateFrontend_ops (f : Frontend) (t : String) (st : St) :
    (CreateFrontend f t st).2.1 = [Op.createFrontend f] := by
  unfold CreateFrontend
  rcases getTxn st t with _ | d
  · rfl
  · dsimp only
    split <;> rfl

theorem GetSite_ops (name txid : String) (st : St) :
    (GetSite name txid st).1 = [Op.siteRead name txid] := by
  unfold GetSite
  rcases GetParser txid st with e | p
  · rfl
  · dsimp only
    split
    · cases parseSite name p <;> rfl
    · rfl

/-! ### C10 -/

/-- C10: with client-side validation enabled and a desired site that fails
schema validation, CreateSite and EditSite return the ValidationError with
no transaction load and no primitive operation issued (empty trace), and
the client state — committed configuration and transactions — unchanged. -/
theorem validation_gate (st : St) (data : Site) (name txid : String)
    (v : Nat) (msg : String) (hON : st.useValidation = true)
    (hBAD : st.validateErr data = some msg) :
    CreateSite data txid v st = (st, [], Out.ok (some (ConfError.validation msg))) ∧
    EditSite name data txid v st = (st, [], Out.ok (some (ConfError.validation msg))) := by
  constructor
  · simp [CreateSite, hON, hBAD]
  · simp [EditSite, hON, hBAD]

/-- Witness for C10 at a concrete rejecting client and the example site. -/
theorem validation_gate_witness :
    CreateSite exampleSite "" 0 stRejecting =
      (stRejecting, [], Out.ok (some (ConfError.validation "invalid"))) ∧
    EditSite "web" exampleSite "" 0 stRejecting =
      (stRejecting, [], Out.ok (some (ConfError.validation "invalid"))) :=
  validation_gate stRejecting exampleSite "web" "" 0 "invalid" rfl rfl

/-! ### C4 -/

/-- C4 counterexample: CreateSite on a site with an empty (nil) Service still
issues the CreateFrontend primitive — frontend creation is not skipped — and
the call then panics dereferencing the nil Service in the listener loop. -/
theorem createFrontend_not_skipped_cex :
    (CreateSite { name := "s", service := none, farms := [] } "" 0 stEmpty).2.1 =
      [Op.loadData "" "tx0",
       Op.createFrontend { name := "s", mode := "", maxconn := none,
                           httpConnectionMode := "", defaultBackend := "" }] ∧
    (CreateSite { name := "s", service := none, farms := [] } "" 0 stEmpty).2.2 =
      Out.panicked := by
  exact ⟨rfl, rfl⟩

/-- C4 amended: frontend creation is never skipped. serializeServiceToFrontend
always returns a frontend (carrying only the site name when the Service is
empty), so whenever validation passes and the transaction loads, CreateSite
issues the CreateFrontend primitive as its first operation — also for an
empty Service. -/
theorem frontend_always_created :
    (∀ svc nm, (serializeServiceToFrontend svc nm).isSome = true) ∧
    (∀ (st : St) (data : Site) (txid : String) (v : Nat) (st1 : St)
       (ops1 : List Op) (t : String), st.useValidation = false →
      loadDataForChange txid v st = (st1, ops1, Except.ok t) →
      ∃ fr rest, serializeServiceToFrontend data.service data.name = some fr ∧
        (CreateSite data txid v st).2.1 = ops1 ++ Op.createFrontend fr :: rest) := by
  constructor
  · intro svc nm
    cases svc <;> rfl
  · intro st data txid v st1 ops1 t hval hload
    have hmain : CreateSite data txid v st = createSiteMain data txid v st := by
      simp [CreateSite, hval]
    rw [hmain]
    unfold createSiteMain
    rw [hload]
    dsimp only
    rcases hsvc : data.service with _ | svc
    · simp only [hsvc, serializeServiceToFrontend]
      simp only [CreateFrontend_ops, List.append_assoc, List.singleton_append]
      exact ⟨_, _, rfl, rfl⟩
    · simp only [hsvc, serializeServiceToFrontend]
      have hops := CreateFrontend_ops { name := data.name, mode := svc.mode, maxconn := svc.maxconn, httpConnectionMode := svc.httpConnectionMode, defaultBackend := "" } t st1
      generalize hcf : CreateFrontend { name := data.name, mode := svc.mode, maxconn := svc.maxconn, httpConnectionMode := svc.httpConnectionMode, defaultBackend := "" } t st1 = rcf at hops ⊢
      rcases rcf with ⟨stf, opsf, ef⟩
      dsimp only at hops
      subst hops
      generalize hb : createSiteBinds data.name t svc.listeners stf = r3
      rcases r3 with ⟨st3, ops3, out3⟩
      rcases out3 with errsB | _
      · dsimp only
        generalize hf : createSiteFarms data.name t data.farms st3 = r4
        rcases r4 with ⟨st4, ops4, out4⟩
        rcases out4 with errsF | _
        · dsimp only
          rw [ite_snd_fst]
          simp only [List.append_assoc, List.singleton_append]
          exact ⟨_, _, rfl, rfl⟩
        · dsimp only
          simp only [List.append_assoc, List.singleton_append]
          exact ⟨_, _, rfl, rfl⟩
      · dsimp only
        simp only [List.append_assoc, List.singleton_append]
        exact ⟨_, _, rfl, rfl⟩

/-! ### C8 -/

/-- C8: DeleteSite reads the current site through GetSite with the
transaction id returned by loadDataForChange (the working transaction, also
when freshly opened), while EditSite reads through GetSite with the original
caller-supplied transaction id. -/
theorem read_txids (st : St) (name : String) (data : Site) (txid : String)
    (v : Nat) (st1 : St) (ops1 : List Op) (t : String)
    (hval : st.useValidation = false)
    (hload : loadDataForChange txid v st = (st1, ops1, Except.ok t)) :
    (∃ rest, (DeleteSite name txid v st).2.1 = ops1 ++ Op.siteRead name t :: rest) ∧
    (∃ rest, (EditSite name data txid v st).2.1 = ops1 ++ Op.siteRead name txid :: rest) := by
  constructor
  · unfold DeleteSite
    rw [hload]
    dsimp only
    have hrops := GetSite_ops name t st1
    generalize hg : GetSite name t st1 = rg at hrops ⊢
    rcases rg with ⟨rops, res⟩
    dsimp only at hrops
    subst hrops
    rcases res with e | pr
    · dsimp only
      try simp only [List.append_assoc, List.singleton_append]
      exact ⟨_, rfl⟩
    · rcases pr with ⟨vv, site⟩
      dsimp only
      rw [ite_snd_fst]
      simp only [List.singleton_append, List.append_assoc]
      exact ⟨_, rfl⟩
  · have hmain : EditSite name data txid v st = editSiteMain name data txid v st := by
      simp [EditSite, hval]
    rw [hmain]
    unfold editSiteMain
    rw [hload]
    dsimp only
    have hrops := GetSite_ops name txid st1
    generalize hg : GetSite name txid st1 = rg at hrops ⊢
    rcases rg with ⟨rops, res⟩
    dsimp only at hrops
    subst hrops
    rcases res with e | pr
    · dsimp only
      try simp only [List.append_assoc, List.singleton_append]
      exact ⟨_, rfl⟩
    · rcases pr with ⟨vv, confS⟩
      dsimp only
      generalize hsp : editServicePhase data.name data.service confS.service t st1 = rsp
      rcases rsp with ⟨st2, ops2, out2⟩
      rcases out2 with errsS | _
      · dsimp only
        by_cases hc : confS.farms = data.farms
        · simp only [if_pos hc]
          try dsimp only
          rw [ite_snd_fst]
          try simp only [List.append_assoc, List.singleton_append]
          exact ⟨_, rfl⟩
        · simp only [if_neg hc]
          try dsimp only
          generalize hl : editFarmsLoop name t confS.farms data.farms "" st2 = rl
          rcases rl with ⟨st3, ops3, fo⟩
          rcases fo with e | ⟨dft, errsF⟩
          · try dsimp only
            try simp only [List.append_assoc, List.singleton_append]
            exact ⟨_, rfl⟩
          · try dsimp only
            rw [ite_snd_fst]
            try simp only [List.append_assoc, List.singleton_append]
            exact ⟨_, rfl⟩
      · dsimp only
        try simp only [List.append_assoc, List.singleton_append]
        exact ⟨_, rfl⟩

/-- Witness for C8: over the small committed site and an empty transaction
id, DeleteSite reads through the freshly opened transaction tx0 while
EditSite reads through the empty id. -/
theorem read_txids_witness :
    (∃ rest, (DeleteSite "w" "" 0 stSmallSite).2.1 =
      [Op.loadData "" "tx0"] ++ Op.siteRead "w" "tx0" :: rest) ∧
    (∃ rest, (EditSite "w" smallSiteRead "" 0 stSmallSite).2.1 =
      [Op.loadData "" "tx0"] ++ Op.siteRead "w" "" :: rest) :=
  read_txids stSmallSite "w" smallSiteRead "" 0 _ [Op.loadData "" "tx0"] "tx0"
    rfl rfl

/-- Witness for C4's amended theorem at a nil-service site over the empty
client. -/
theorem frontend_always_created_witness :
    ∃ fr rest, serializeServiceToFrontend none "s" = some fr ∧
      (CreateSite { name := "s", service := none, farms := [] } "" 0 stEmpty).2.1 =
        [Op.loadData "" "tx0"] ++ Op.createFrontend fr :: rest :=
  frontend_always_created.2 stEmpty { name := "s", service := none, farms := [] }
    "" 0 _ [Op.loadData "" "tx0"] "tx0" rfl rfl

/-! ### C7 -/

theorem firstRuleIdx_none (backend : String) (l : List Rule)
    (h : firstRuleIdx backend l = none) : ∀ uf ∈ l, uf.name ≠ backend := by
  induction l with
  | nil => intro uf huf; cases huf
  | cons a l ih =>
    intro uf huf
    unfold firstRuleIdx at h
    by_cases ha : a.name = backend
    · simp [ha] at h
    · simp only [beq_iff_eq, if_neg ha, Option.map_eq_none'] at h
      rcases List.mem_cons.mp huf with rfl | huf
      · exact ha
      · exact ih h uf huf

theorem firstRuleIdx_some (backend : String) :
    ∀ (l : List Rule) (i : Nat), firstRuleIdx backend l = some i →
      ∃ uf, l.get? i = some uf ∧ uf.name = backend ∧
        ∀ j, j < i → ∀ uf', l.get? j = some uf' → uf'.name ≠ backend := by
  intro l
  induction l with
  | nil => intro i h; cases h
  | cons a l ih =>
    intro i h
    unfold firstRuleIdx at h
    by_cases ha : a.name = backend
    · simp only [beq_iff_eq, if_pos ha, Option.some_inj] at h
      subst h
      exact ⟨a, rfl, ha, by intro j hj; omega⟩
    · simp only [beq_iff_eq, if_neg ha, Option.map_eq_some'] at h
      rcases h with ⟨i', hi', rfl⟩
      rcases ih i' hi' with ⟨uf, hget, hname, hlt⟩
      refine ⟨uf, by simpa using hget, hname, ?_⟩
      intro j hj uf' hget'
      cases j with
      | zero =>
        have huf : a = uf' := by simpa using hget'
        rw [← huf]
        exact ha
      | succ j =>
        exact hlt j (by omega) uf' (by simpa using hget')

/-- C7: removeUseFarm deletes exactly the first switching rule of the
frontend whose target equals the backend name — identified by its ordinal
position among the frontend's rules — and returns success without issuing
any operation when no rule matches. -/
theorem removeUseFarm_spec (st : St) (t frontend backend : String) (p : Doc)
    (hp : getTxn st t = some p) (hfr : checkSectionExists frontend p = true) :
    (firstRuleIdx backend (agetD p.rules frontend) = none →
      (∀ uf ∈ agetD p.rules frontend, uf.name ≠ backend) ∧
      removeUseFarm frontend backend t st = (st, [], none)) ∧
    (∀ i, firstRuleIdx backend (agetD p.rules frontend) = some i →
      ∃ uf, (agetD p.rules frontend).get? i = some uf ∧ uf.name = backend ∧
        (∀ j, j < i → ∀ uf', (agetD p.rules frontend).get? j = some uf' →
          uf'.name ≠ backend) ∧
        removeUseFarm frontend backend t st =
          (setTxn st t { p with rules := aset p.rules frontend ((agetD p.rules frontend).eraseIdx i) },
           [Op.deleteRule i frontend], none)) := by
  have hrules : parseBackendSwitchingRules frontend p =
      Except.ok (agetD p.rules frontend) := by
    unfold parseBackendSwitchingRules
    rw [hfr]
    rfl
  constructor
  · intro hnone
    refine ⟨firstRuleIdx_none backend _ hnone, ?_⟩
    unfold removeUseFarm
    rw [hp]
    dsimp only
    rw [hrules]
    dsimp only
    rw [hnone]
  · intro i hsome
    obtain ⟨uf, hget, hname, hlt⟩ := firstRuleIdx_some backend _ i hsome
    have hilen : i < (agetD p.rules frontend).length := by
      rcases List.get?_eq_some.mp hget with ⟨hl, _⟩
      exact hl
    refine ⟨uf, hget, hname, hlt, ?_⟩
    unfold removeUseFarm
    rw [hp]
    dsimp only
    rw [hrules]
    dsimp only
    rw [hsome]
    unfold DeleteBackendSwitchingRule
    rw [hp]
    dsimp only
    rw [if_pos hilen]

/-- Witness for C7 over the rules document: among the three rules of w the
first one targeting zz sits at position 1 and is the one deleted. -/
theorem removeUseFarm_spec_witness :
    ∃ uf, (agetD rulesDoc.rules "w").get? 1 = some uf ∧ uf.name = "zz" ∧
      (∀ j, j < 1 → ∀ uf', (agetD rulesDoc.rules "w").get? j = some uf' →
        uf'.name ≠ "zz") ∧
      removeUseFarm "w" "zz" "T" stRules =
        (setTxn stRules "T" { rulesDoc with rules := aset rulesDoc.rules "w" ((agetD rulesDoc.rules "w").eraseIdx 1) },
         [Op.deleteRule 1 "w"], none) :=
  (removeUseFarm_spec stRules "T" "w" "zz" rulesDoc rfl rfl).2 1 rfl

/-! ### C3 -/

/-- C3 evaluation at the failing input: EditSite over the site just read
succeeds but is not mutation-free — the read round-trips, the call returns
success, yet it issues one EditFrontend primitive clearing the frontend's
default-backend pointer, and the committed site afterwards has lost its
default farm. -/
theorem idempotent_edit_mutates :
    (GetSite "w" "" stSmallSite).2 = Except.ok (0, smallSiteRead) ∧
    (EditSite "w" smallSiteRead "" 0 stSmallSite).2.2 = Out.ok none ∧
    (EditSite "w" smallSiteRead "" 0 stSmallSite).2.1.filter (fun op => op.isMutation) =
      [Op.editFrontend "w" { name := "w", mode := "http", maxconn := none, httpConnectionMode := "", defaultBackend := "" }] ∧
    (GetSite "w" "" (EditSite "w" smallSiteRead "" 0 stSmallSite).1).2 =
      Except.ok (1, { smallSiteRead with farms := [] }) :=
  ⟨rfl, rfl, rfl, rfl⟩

/-! ### C5 -/

/-- C5 counterexample: the only CreateServer issued by an EditSite call that
adds an unnamed server carries the empty name unchanged — it is not set to
address:port before the primitive create is issued. -/
theorem edit_add_server_raw_name_cex :
    (EditSite "w" addServerSite "" 0 stSmallSite).2.1.filter
      (fun op => match op with | Op.createServer _ _ => true | _ => false) =
      [Op.createServer "a" { name := "", address := "1.2.3.4", port := some 80 }] := rfl

theorem CreateBind_ops (f : String) (l : Listener) (t : String) (st : St) :
    (CreateBind f l t st).2.1 = [Op.createBind f l] := by
  unfold CreateBind
  rcases getTxn st t with _ | d
  · rfl
  · dsimp only
    split
    · split <;> rfl
    · rfl

theorem CreateServer_ops (b : String) (s : Server) (t : String) (st : St) :
    (CreateServer b s t st).2.1 = [Op.createServer b s] := by
  unfold CreateServer
  rcases getTxn st t with _ | d
  · rfl
  · dsimp only
    split
    · split <;> rfl
    · rfl

theorem EditBind_ops (nm f : String) (l : Listener) (t : String) (st : St) :
    (EditBind nm f l t st).2.1 = [Op.editBind nm f l] := by
  unfold EditBind
  rcases getTxn st t with _ | d
  · rfl
  · dsimp only
    split <;> rfl

theorem EditServer_ops (nm b : String) (s : Server) (t : String) (st : St) :
    (EditServer nm b s t st).2.1 = [Op.editServer nm b s] := by
  unfold EditServer
  rcases getTxn st t with _ | d
  · rfl
  · dsimp only
    split <;> rfl

theorem createSiteBinds_sanitized (siteName t : String) :
    ∀ (ls : List Listener) (st : St) (n : String) (l' : Listener),
      Op.createBind n l' ∈ (createSiteBinds siteName t ls st).2.1 →
      n = siteName ∧ ∃ l ∈ ls, sanitizeListener l = some l' := by
  intro ls
  induction ls with
  | nil =>
    intro st n l' h
    simp [createSiteBinds] at h
  | cons l ls ih =>
    intro st n l' h
    unfold createSiteBinds at h
    rcases hs : sanitizeListener l with _ | l1
    · rw [hs] at h
      simp at h
    · rw [hs] at h
      dsimp only at h
      rcases hrec : createSiteBinds siteName t ls (CreateBind siteName l1 t st).1
        with ⟨st2, ops2, out2⟩
      rw [hrec] at h
      have hmem : Op.createBind n l' ∈ (CreateBind siteName l1 t st).2.1 ++ ops2 := by
        rcases out2 with errs | _ <;> simpa using h
      rw [CreateBind_ops] at hmem
      rcases List.mem_append.mp hmem with h1 | h2
      · have h1' := List.mem_singleton.mp h1
        have hn : n = siteName ∧ l' = l1 := by
          constructor <;> injection h1'
        exact ⟨hn.1, l, List.mem_cons_self l ls, hn.2 ▸ hs⟩
      · obtain ⟨hn, l0, hl0, hs0⟩ := ih _ n l' (by rw [hrec]; exact h2)
        exact ⟨hn, l0, List.mem_cons_of_mem l hl0, hs0⟩

theorem editListenersAdd_sanitized (dataName t : String) (confLs : List Listener) :
    ∀ (ls : List Listener) (st : St) (n : String) (l' : Listener),
      Op.createBind n l' ∈ (editListenersAdd dataName t confLs ls st).2.1 →
      n = dataName ∧ ∃ l ∈ ls, sanitizeListener l = some l' := by
  intro ls
  induction ls with
  | nil =>
    intro st n l' h
    simp [editListenersAdd] at h
  | cons l ls ih =>
    intro st n l' h
    unfold editListenersAdd at h
    rcases hfind : confLs.find? (fun confL => confL.name == l.name) with _ | confL
    · rw [hfind] at h
      dsimp only at h
      rcases hs : sanitizeListener l with _ | l1
      · rw [hs] at h
        simp at h
      · rw [hs] at h
        dsimp only at h
        rcases hrec : editListenersAdd dataName t confLs ls (CreateBind dataName l1 t st).1
          with ⟨st2, ops2, out2⟩
        rw [hrec] at h
        have hmem : Op.createBind n l' ∈ (CreateBind dataName l1 t st).2.1 ++ ops2 := by
          rcases out2 with errs | _ <;> simpa using h
        rw [CreateBind_ops] at hmem
        rcases List.mem_append.mp hmem with h1 | h2
        · have h1' := List.mem_singleton.mp h1
          have hn : n = dataName ∧ l' = l1 := by
            constructor <;> injection h1'
          exact ⟨hn.1, l, List.mem_cons_self l ls, hn.2 ▸ hs⟩
        · obtain ⟨hn, l0, hl0, hs0⟩ := ih _ n l' (by rw [hrec]; exact h2)
          exact ⟨hn, l0, List.mem_cons_of_mem l hl0, hs0⟩
    · rw [hfind] at h
      dsimp only at h
      by_cases hecase : l = confL
      · rw [if_pos hecase] at h
        rcases hrec : editListenersAdd dataName t confLs ls st with ⟨st2, ops2, out2⟩
        rw [hrec] at h
        have hmem : Op.createBind n l' ∈ ([] : List Op) ++ ops2 := by
          rcases out2 with errs | _ <;> simpa using h
        rcases List.mem_append.mp hmem with h1 | h2
        · simp at h1
        · obtain ⟨hn, l0, hl0, hs0⟩ := ih _ n l' (by rw [hrec]; exact h2)
          exact ⟨hn, l0, List.mem_cons_of_mem l hl0, hs0⟩
      · rw [if_neg hecase] at h
        rcases hrec : editListenersAdd dataName t confLs ls (EditBind l.name dataName l t st).1
          with ⟨st2, ops2, out2⟩
        rw [hrec] at h
        have hmem : Op.createBind n l' ∈ (EditBind l.name dataName l t st).2.1 ++ ops2 := by
          rcases out2 with errs | _ <;> simpa using h
        rw [EditBind_ops] at hmem
        rcases List.mem_append.mp hmem with h1 | h2
        · have h1' := List.mem_singleton.mp h1
          cases h1'
        · obtain ⟨hn, l0, hl0, hs0⟩ := ih _ n l' (by rw [hrec]; exact h2)
          exact ⟨hn, l0, List.mem_cons_of_mem l hl0, hs0⟩

theorem createSiteServers_sanitized (bName t : String) :
    ∀ (ss : List Server) (st : St) (b : String) (s' : Server),
      Op.createServer b s' ∈ (createSiteServers bName t ss st).2.1 →
      b = bName ∧ ∃ s ∈ ss, sanitizeServer s = some s' := by
  intro ss
  induction ss with
  | nil =>
    intro st b s' h
    simp [createSiteServers] at h
  | cons s ss ih =>
    intro st b s' h
    unfold createSiteServers at h
    rcases hs : sanitizeServer s with _ | s1
    · rw [hs] at h
      simp at h
    · rw [hs] at h
      dsimp only at h
      rcases hrec : createSiteServers bName t ss (CreateServer bName s1 t st).1
        with ⟨st2, ops2, out2⟩
      rw [hrec] at h
      have hmem : Op.createServer b s' ∈ (CreateServer bName s1 t st).2.1 ++ ops2 := by
        rcases out2 with errs | _ <;> simpa using h
      rw [CreateServer_ops] at hmem
      rcases List.mem_append.mp hmem with h1 | h2
      · have h1' := List.mem_singleton.mp h1
        have hn : b = bName ∧ s' = s1 := by
          constructor <;> injection h1'
        exact ⟨hn.1, s, List.mem_cons_self s ss, hn.2 ▸ hs⟩
      · obtain ⟨hn, s0, hs0m, hs0⟩ := ih _ b s' (by rw [hrec]; exact h2)
        exact ⟨hn, s0, List.mem_cons_of_mem s hs0m, hs0⟩

theorem editNewFarmServers_ops (bName t : String) :
    ∀ (ss : List Server) (st : St),
      (editNewFarmServers bName t ss st).2.1 =
        ss.map (fun s => Op.createServer bName s) := by
  intro ss
  induction ss with
  | nil => intro st; rfl
  | cons s ss ih =>
    intro st
    unfold editNewFarmServers
    dsimp only
    rw [CreateServer_ops, ih]
    rfl

theorem editFarmServersAdd_raw (bName t : String) (confSrvs : List Server) :
    ∀ (ss : List Server) (st : St) (b : String) (s' : Server),
      Op.createServer b s' ∈ (editFarmServersAdd bName t confSrvs ss st).2.1 →
      b = bName ∧ s' ∈ ss := by
  intro ss
  induction ss with
  | nil =>
    intro st b s' h
    simp [editFarmServersAdd] at h
  | cons s ss ih =>
    intro st b s' h
    unfold editFarmServersAdd at h
    rcases hfind : confSrvs.find? (fun confSrv => confSrv.name == s.name) with _ | confSrv
    · rw [hfind] at h
      dsimp only at h
      rcases List.mem_append.mp h with h1 | h2
      · rw [CreateServer_ops] at h1
        have h1' := List.mem_singleton.mp h1
        have hn : b = bName ∧ s' = s := by
          constructor <;> injection h1'
        exact ⟨hn.1, hn.2 ▸ List.mem_cons_self s ss⟩
      · obtain ⟨hn, hmem'⟩ := ih _ b s' h2
        exact ⟨hn, List.mem_cons_of_mem s hmem'⟩
    · rw [hfind] at h
      dsimp only at h
      by_cases hecase : s = confSrv
      · rw [if_pos hecase] at h
        try dsimp only at h
        rcases List.mem_append.mp h with h1 | h2
        · simp at h1
        · obtain ⟨hn, hmem'⟩ := ih _ b s' h2
          exact ⟨hn, List.mem_cons_of_mem s hmem'⟩
      · rw [if_neg hecase] at h
        try dsimp only at h
        rcases List.mem_append.mp h with h1 | h2
        · rw [EditServer_ops] at h1
          have h1' := List.mem_singleton.mp h1
          cases h1'
        · obtain ⟨hn, hmem'⟩ := ih _ b s' h2
          exact ⟨hn, List.mem_cons_of_mem s hmem'⟩

/-- C5 amended: unnamed Listeners are auto-named address:port identically in
the CreateSite and EditSite add paths (every CreateBind issued by either
loop carries a sanitized listener of the input), and unnamed Servers are
auto-named only in CreateSite: the EditSite server-add paths issue
CreateServer with the server exactly as given, empty name included. -/
theorem autoname_rules :
    (∀ (siteName t : String) (ls : List Listener) (st : St) (n : String) (l' : Listener),
      Op.createBind n l' ∈ (createSiteBinds siteName t ls st).2.1 →
      n = siteName ∧ ∃ l ∈ ls, sanitizeListener l = some l') ∧
    (∀ (dataName t : String) (confLs ls : List Listener) (st : St) (n : String) (l' : Listener),
      Op.createBind n l' ∈ (editListenersAdd dataName t confLs ls st).2.1 →
      n = dataName ∧ ∃ l ∈ ls, sanitizeListener l = some l') ∧
    (∀ (bName t : String) (ss : List Server) (st : St) (b : String) (s' : Server),
      Op.createServer b s' ∈ (createSiteServers bName t ss st).2.1 →
      b = bName ∧ ∃ s ∈ ss, sanitizeServer s = some s') ∧
    (∀ (bName t : String) (ss : List Server) (st : St),
      (editNewFarmServers bName t ss st).2.1 = ss.map (fun s => Op.createServer bName s)) ∧
    (∀ (bName t : String) (confSrvs ss : List Server) (st : St) (b : String) (s' : Server),
      Op.createServer b s' ∈ (editFarmServersAdd bName t confSrvs ss st).2.1 →
      b = bName ∧ s' ∈ ss) :=
  ⟨fun siteName t ls st n l' => createSiteBinds_sanitized siteName t ls st n l',
   fun dataName t confLs ls st n l' => editListenersAdd_sanitized dataName t confLs ls st n l',
   fun bName t ss st b s' => createSiteServers_sanitized bName t ss st b s',
   fun bName t ss st => editNewFarmServers_ops bName t ss st,
   fun bName t confSrvs ss st b s' => editFarmServersAdd_raw bName t confSrvs ss st b s'⟩

/-- Witness for C5's amended theorem: in the Create path an unnamed listener
comes out as 0.0.0.0:80, while the Edit new-farm path emits the raw unnamed
server. -/
theorem autoname_rules_witness :
    ("web" = "web" ∧ ∃ l ∈ [{ name := "", address := "0.0.0.0", port := some 80 : Listener }],
      sanitizeListener l = some { name := "0.0.0.0:80", address := "0.0.0.0", port := some 80 }) ∧
    (editNewFarmServers "a" "tx0" [{ name := "", address := "1.2.3.4", port := some 80 }] stEmpty).2.1 =
      [Op.createServer "a" { name := "", address := "1.2.3.4", port := some 80 }] :=
  ⟨autoname_rules.1 "web" "tx0" [{ name := "", address := "0.0.0.0", port := some 80 }]
      stEmpty "web" { name := "0.0.0.0:80", address := "0.0.0.0", port := some 80 }
      (by rw [show (createSiteBinds "web" "tx0" [{ name := "", address := "0.0.0.0", port := some 80 }] stEmpty).2.1 = [Op.createBind "web" { name := "0.0.0.0:80", address := "0.0.0.0", port := some 80 }] from rfl]; exact List.mem_singleton.mpr rfl),
   autoname_rules.2.2.2.1 "a" "tx0" [{ name := "", address := "1.2.3.4", port := some 80 }] stEmpty⟩

/-! ### C6 -/

theorem CreateBackend_ops (b : Backend) (t : String) (st : St) :
    (CreateBackend b t st).2.1 = [Op.createBackend b] := by
  unfold CreateBackend
  rcases getTxn st t with _ | d
  · rfl
  · dsimp only
    split <;> rfl

theorem handleError_err (t : String) (i : Bool) (e : ConfError) (st : St) :
    (handleError t i e st).2 = e := by
  unfold handleError
  split <;> rfl

theorem createBckFrontendRels_condErr (name : String) (b : SiteFarm)
    (edit : Bool) (t : String) (st : St) (hcond : b.useAs = "conditional")
    (hempty : b.cond = "" ∨ b.condTest = "") :
    createBckFrontendRels name b edit t st =
      (st, [], some (ConfError.composite [ConfError.generic (condNoPredMsg b.name)])) := by
  unfold createBckFrontendRels
  rw [if_neg (by simp [hcond])]
  rw [if_pos hempty]

theorem createSiteBinds_ok (siteName t : String) :
    ∀ (ls : List Listener) (st : St), (∀ l ∈ ls, (sanitizeListener l).isSome) →
      ∃ st' ops errs, createSiteBinds siteName t ls st = (st', ops, Out.ok errs) ∧
        ∀ l ∈ ls, ∃ l', sanitizeListener l = some l' ∧ Op.createBind siteName l' ∈ ops := by
  intro ls
  induction ls with
  | nil =>
    intro st hs
    exact ⟨st, [], [], rfl, by simp⟩
  | cons l ls ih =>
    intro st hs
    have hl : (sanitizeListener l).isSome := hs l (List.mem_cons_self l ls)
    rcases hsl : sanitizeListener l with _ | l1
    · rw [hsl] at hl
      cases hl
    · obtain ⟨st', ops, errs, hrec, hmem⟩ :=
        ih (CreateBind siteName l1 t st).1 (fun x hx => hs x (List.mem_cons_of_mem l hx))
      refine ⟨st', (CreateBind siteName l1 t st).2.1 ++ ops, errList (CreateBind siteName l1 t st).2.2 ++ errs, ?_, ?_⟩
      · unfold createSiteBinds
        rw [hsl]
        dsimp only
        rw [hrec]
      · intro x hx
        rcases List.mem_cons.mp hx with rfl | hx
        · exact ⟨l1, hsl, by rw [CreateBind_ops]; exact List.mem_append_left _ (List.mem_singleton.mpr rfl)⟩
        · obtain ⟨l', hsan, hm⟩ := hmem x hx
          exact ⟨l', hsan, List.mem_append_right _ hm⟩

theorem createSiteServers_ok (bName t : String) :
    ∀ (ss : List Server) (st : St), (∀ s ∈ ss, (sanitizeServer s).isSome) →
      ∃ st' ops errs, createSiteServers bName t ss st = (st', ops, Out.ok errs) := by
  intro ss
  induction ss with
  | nil =>
    intro st _
    exact ⟨st, [], [], rfl⟩
  | cons s ss ih =>
    intro st hs
    have hl : (sanitizeServer s).isSome := hs s (List.mem_cons_self s ss)
    rcases hsl : sanitizeServer s with _ | s1
    · rw [hsl] at hl
      cases hl
    · obtain ⟨st', ops, errs, hrec⟩ :=
        ih (CreateServer bName s1 t st).1 (fun x hx => hs x (List.mem_cons_of_mem s hx))
      refine ⟨st', (CreateServer bName s1 t st).2.1 ++ ops, errList (CreateServer bName s1 t st).2.2 ++ errs, ?_⟩
      unfold createSiteServers
      rw [hsl]
      dsimp only
      rw [hrec]

theorem createSiteFarms_attempts (siteName t : String) :
    ∀ (farms : List SiteFarm) (st : St),
      (∀ b ∈ farms, ∀ s ∈ b.servers, (sanitizeServer s).isSome) →
      ∃ st' ops errs, createSiteFarms siteName t farms st = (st', ops, Out.ok errs) ∧
        (∀ b ∈ farms, Op.createBackend (serializeFarmToBackend b) ∈ ops) ∧
        (∀ b ∈ farms, b.useAs = "conditional" → b.cond = "" ∨ b.condTest = "" →
          ConfError.composite [ConfError.generic (condNoPredMsg b.name)] ∈ errs) := by
  intro farms
  induction farms with
  | nil =>
    intro st _
    exact ⟨st, [], [], rfl, by simp, by simp⟩
  | cons b bs ih =>
    intro st hs
    obtain ⟨st2, ops2, errs2, hsrv⟩ :=
      createSiteServers_ok b.name t b.servers (CreateBackend (serializeFarmToBackend b) t st).1
        (hs b (List.mem_cons_self b bs))
    obtain ⟨st4, ops4, errs4, hrec, hmem4, herr4⟩ :=
      ih (createBckFrontendRels siteName b false t st2).1
        (fun x hx => hs x (List.mem_cons_of_mem b hx))
    refine ⟨st4,
      (CreateBackend (serializeFarmToBackend b) t st).2.1 ++ ops2 ++
        (createBckFrontendRels siteName b false t st2).2.1 ++ ops4,
      errList (CreateBackend (serializeFarmToBackend b) t st).2.2 ++ errs2 ++
        errList (createBckFrontendRels siteName b false t st2).2.2 ++ errs4, ?_, ?_, ?_⟩
    · unfold createSiteFarms
      dsimp only
      rw [hsrv]
      dsimp only
      rw [hrec]
    · intro x hx
      rcases List.mem_cons.mp hx with rfl | hx
      · rw [CreateBackend_ops]
        exact List.mem_append_left _ (List.mem_append_left _
          (List.mem_append_left _ (List.mem_singleton.mpr rfl)))
      · exact List.mem_append_right _ (hmem4 x hx)
    · intro x hx hxc hxe
      rcases List.mem_cons.mp hx with rfl | hx
      · rw [createBckFrontendRels_condErr siteName x false t st2 hxc hxe]
        dsimp only [errList]
        exact List.mem_append_left _ (List.mem_append_right _ (List.mem_singleton.mpr rfl))
      · exact List.mem_append_right _ (herr4 x hx hxc hxe)

/-- C6: in a CreateSite call with a conditional farm missing its predicate,
that farm's attachment fails with the predicate error recorded inside the
composite error the call returns, while every farm still has its backend
creation attempted and every listener its bind creation attempted — failures
are collected, not short-circuited. -/
theorem conditional_missing_pred (st : St) (data : Site) (txid : String)
    (v : Nat) (st1 : St) (ops1 : List Op) (t : String) (svc : SiteService)
    (b : SiteFarm) (hval : st.useValidation = false)
    (hload : loadDataForChange txid v st = (st1, ops1, Except.ok t))
    (hsvc : data.service = some svc)
    (hls : ∀ l ∈ svc.listeners, (sanitizeListener l).isSome)
    (hsrv : ∀ b' ∈ data.farms, ∀ s ∈ b'.servers, (sanitizeServer s).isSome)
    (hb : b ∈ data.farms) (hcond : b.useAs = "conditional")
    (hempty : b.cond = "" ∨ b.condTest = "") :
    ∃ st' ops res, CreateSite data txid v st = (st', ops, Out.ok (some (ConfError.composite res))) ∧
      ConfError.composite [ConfError.generic (condNoPredMsg b.name)] ∈ res ∧
      (∀ b' ∈ data.farms, Op.createBackend (serializeFarmToBackend b') ∈ ops) ∧
      (∀ l ∈ svc.listeners, ∃ l', sanitizeListener l = some l' ∧ Op.createBind data.name l' ∈ ops) := by
  have hmain : CreateSite data txid v st = createSiteMain data txid v st := by
    simp [CreateSite, hval]
  rw [hmain]
  unfold createSiteMain
  rw [hload]
  dsimp only
  simp only [hsvc, serializeServiceToFrontend]
  obtain ⟨st3, ops3, errsB, hbinds, hmemB⟩ :=
    createSiteBinds_ok data.name t svc.listeners
      (CreateFrontend { name := data.name, mode := svc.mode, maxconn := svc.maxconn, httpConnectionMode := svc.httpConnectionMode, defaultBackend := "" } t st1).1 hls
  rw [hbinds]
  dsimp only
  obtain ⟨st4, ops4, errsF, hfarms, hmemF, herrF⟩ :=
    createSiteFarms_attempts data.name t data.farms st3 hsrv
  rw [hfarms]
  dsimp only
  have hbad : ConfError.composite [ConfError.generic (condNoPredMsg b.name)] ∈ errsF :=
    herrF b hb hcond hempty
  have hne2 : (errList (CreateFrontend { name := data.name, mode := svc.mode, maxconn := svc.maxconn, httpConnectionMode := svc.httpConnectionMode, defaultBackend := "" } t st1).2.2 ++ errsB ++ errsF) ≠ [] := by
    intro hemp
    have hx := List.mem_append_right (errList (CreateFrontend { name := data.name, mode := svc.mode, maxconn := svc.maxconn, httpConnectionMode := svc.httpConnectionMode, defaultBackend := "" } t st1).2.2 ++ errsB) hbad
    rw [hemp] at hx
    cases hx
  rw [if_neg (by rw [List.isEmpty_eq_false.mpr hne2]; simp)]
  rw [handleError_err]
  refine ⟨_, _, _, rfl, ?_, ?_, ?_⟩
  · exact List.mem_append_right _ hbad
  · intro b' hb'
    exact List.mem_append_right _ (hmemF b' hb')
  · intro l hl
    obtain ⟨l', hsan, hm⟩ := hmemB l hl
    exact ⟨l', hsan, List.mem_append_left _ (List.mem_append_right _ hm)⟩

/-- Witness for C6 at a site with three conditional farms, the middle one
missing its condition. -/
theorem conditional_missing_pred_witness :
    ∃ st' ops res, CreateSite condBadSite "" 0 stEmpty = (st', ops, Out.ok (some (ConfError.composite res))) ∧
      ConfError.composite [ConfError.generic (condNoPredMsg "bad")] ∈ res ∧
      (∀ b' ∈ condBadSite.farms, Op.createBackend (serializeFarmToBackend b') ∈ ops) ∧
      (∀ l ∈ svcPlain.listeners, ∃ l', sanitizeListener l = some l' ∧ Op.createBind condBadSite.name l' ∈ ops) :=
  conditional_missing_pred stEmpty condBadSite "" 0 _ [Op.loadData "" "tx0"] "tx0"
    svcPlain (mkFarm "bad" "conditional" "" "t" []) rfl rfl rfl
    (by intro l hl; cases hl) (by decide) (by decide) rfl (Or.inl rfl)

/-! ### C9 -/

theorem findBackend_name (p : Doc) (nm : String) (b : Backend)
    (h : p.findBackend nm = some b) : b.name = nm := by
  have hx := List.find?_some h
  simpa using hx

theorem condFarms_tags (p : Doc) :
    ∀ (rs : List Rule),
      (rs.filterMap (fun ub => parseFarm ub.name "conditional" ub.cond ub.condTest p)).map
          (fun f => (f.useAs, f.name)) =
        (rs.filter (fun ub => (p.findBackend ub.name).isSome)).map
          (fun ub => ("conditional", ub.name)) := by
  intro rs
  induction rs with
  | nil => rfl
  | cons ub rs ih =>
    rcases hfb : p.findBackend ub.name with _ | b
    · have hpf : parseFarm ub.name "conditional" ub.cond ub.condTest p = none := by
        unfold parseFarm
        rw [hfb]
      rw [List.filterMap_cons, hpf, List.filter_cons]
      rw [hfb]
      simpa using ih
    · have hpf : parseFarm ub.name "conditional" ub.cond ub.condTest p =
          some { useAs := "conditional", cond := ub.cond, condTest := ub.condTest,
                 mode := b.mode, name := b.name, forwardfor := b.forwardfor,
                 balance := b.balance, servers := agetD p.servers ub.name } := by
        unfold parseFarm
        rw [hfb]
      rw [List.filterMap_cons, hpf, List.filter_cons]
      rw [hfb]
      simp only [Option.isSome_some, if_pos]
      rw [List.map_cons, List.map_cons, ih]
      rw [findBackend_name p ub.name b hfb]

theorem parseSite_farmTags (s : String) (p : Doc) (site : Site)
    (h : parseSite s p = some site) :
    site.name = s ∧
      site.farms.map (fun f => (f.useAs, f.name)) = specFarmTags p s := by
  unfold parseSite at h
  rcases hfr : p.findFrontend s with _ | fr
  · rw [hfr] at h
    cases h
  · rw [hfr] at h
    dsimp only at h
    have hsite := Option.some_inj.mp h
    subst hsite
    refine ⟨rfl, ?_⟩
    unfold specFarmTags
    rw [hfr]
    dsimp only
    rw [List.map_append, condFarms_tags]
    congr 1
    by_cases hdb : fr.defaultBackend ≠ ""
    · rw [if_pos hdb]
      rcases hfb : p.findBackend fr.defaultBackend with _ | b
      · have hpf : parseFarm fr.defaultBackend "default" "" "" p = none := by
          unfold parseFarm
          rw [hfb]
        rw [hpf]
        rw [if_neg (by simp [hfb])]
        rfl
      · have hpf : parseFarm fr.defaultBackend "default" "" "" p =
            some { useAs := "default", cond := "", condTest := "",
                   mode := b.mode, name := b.name, forwardfor := b.forwardfor,
                   balance := b.balance, servers := agetD p.servers fr.defaultBackend } := by
          unfold parseFarm
          rw [hfb]
        rw [hpf]
        rw [if_pos ⟨hdb, by simp [hfb]⟩]
        dsimp only [List.map_cons, List.map_nil]
        rw [findBackend_name p fr.defaultBackend b hfb]
    · rw [if_neg hdb]
      rw [if_neg (by intro hx; exact hdb hx.1)]
      rfl

/-- C9: every Site returned by GetSite or GetSites lists its farms in the
fixed order the claim states: the default farm — present exactly when the
frontend's default-backend pointer is non-empty and resolves to an existing
backend — first, then the conditional farms in the order of the frontend's
switching rules, skipping rules whose target does not resolve. -/
theorem farm_order (txid : String) (st : St) :
    (∀ name v site ops, GetSite name txid st = (ops, Except.ok (v, site)) →
      ∃ p, GetParser txid st = Except.ok p ∧ site.name = name ∧
        site.farms.map (fun f => (f.useAs, f.name)) = specFarmTags p name) ∧
    (∀ v sites ops, GetSites txid st = (ops, Except.ok (v, sites)) →
      ∃ p, GetParser txid st = Except.ok p ∧
        ∀ site ∈ sites, site.farms.map (fun f => (f.useAs, f.name)) =
          specFarmTags p site.name) := by
  constructor
  · intro name v site ops h
    unfold GetSite at h
    rcases hgp : GetParser txid st with e | p
    · rw [hgp] at h
      cases h
    · rw [hgp] at h
      dsimp only at h
      by_cases hcs : checkSectionExists name p = true
      · rw [if_pos hcs] at h
        rcases hps : parseSite name p with _ | site'
        · rw [hps] at h
          cases h
        · rw [hps] at h
          dsimp only at h
          have hpair := (Prod.mk.injEq _ _ _ _).mp h
          have hok := hpair.2
          have hsite : site' = site := by
            have hx := Except.ok.inj hok
            exact ((Prod.mk.injEq _ _ _ _).mp hx).2
          subst hsite
          obtain ⟨hn, hm⟩ := parseSite_farmTags name p site' hps
          exact ⟨p, rfl, hn, hm⟩
      · rw [if_neg hcs] at h
        cases h
  · intro v sites ops h
    unfold GetSites at h
    rcases hgp : GetParser txid st with e | p
    · rw [hgp] at h
      cases ((Prod.mk.injEq _ _ _ _).mp h).2
    · rw [hgp] at h
      have hok := ((Prod.mk.injEq _ _ _ _).mp h).2
      have hsites : sites = parseSites p := by
        have hx := Except.ok.inj hok
        exact (((Prod.mk.injEq _ _ _ _).mp hx).2).symm
      subst hsites
      refine ⟨p, rfl, ?_⟩
      intro site hm
      unfold parseSites at hm
      rcases List.mem_filterMap.mp hm with ⟨s, _, hps⟩
      obtain ⟨hn, hmap⟩ := parseSite_farmTags s p site hps
      rw [hn]
      exact hmap

/-- Witness for C9 over the small committed configuration: the site w lists
exactly its default farm a. -/
theorem farm_order_witness :
    ∃ p, GetParser "" stSmallSite = Except.ok p ∧ smallSiteRead.name = "w" ∧
      smallSiteRead.farms.map (fun f => (f.useAs, f.name)) = specFarmTags p "w" :=
  (farm_order "" stSmallSite).1 "w" 0 smallSiteRead [Op.siteRead "w" ""] rfl

/-! ### C1 -/

/-- C1 counterexample: CreateSite accepts a site with two default farms —
the call succeeds, both backends are committed, and the second default wins
the frontend's default-backend pointer. -/
theorem two_default_not_rejected_cex :
    (CreateSite twoDefaultSite "" 0 stEmpty).2.2 = Out.ok none ∧
    (CreateSite twoDefaultSite "" 0 stEmpty).1.committed.backends.map (fun bk => bk.name) = ["a", "b"] ∧
    (CreateSite twoDefaultSite "" 0 stEmpty).1.committed.frontends.map (fun fr => fr.defaultBackend) = ["b"] :=
  ⟨rfl, rfl, rfl⟩

theorem loadDataForChange_err (txid : String) (v : Nat) (st : St) (st1 : St)
    (ops1 : List Op) (e : ConfError)
    (h : loadDataForChange txid v st = (st1, ops1, Except.error e)) :
    e = ConfError.versionMismatch "version mismatch" ∨
      e = ConfError.txDoesNotExist txid := by
  unfold loadDataForChange at h
  by_cases h0 : txid = ""
  · rw [if_pos h0] at h
    by_cases h1 : v = st.version
    · rw [if_pos h1] at h
      cases ((Prod.mk.injEq _ _ _ _).mp ((Prod.mk.injEq _ _ _ _).mp h).2).2
    · rw [if_neg h1] at h
      have hx := ((Prod.mk.injEq _ _ _ _).mp ((Prod.mk.injEq _ _ _ _).mp h).2).2
      exact Or.inl (Except.error.inj hx).symm
  · rw [if_neg h0] at h
    rcases hg : getTxn st txid with _ | d
    · rw [hg] at h
      have hx := ((Prod.mk.injEq _ _ _ _).mp ((Prod.mk.injEq _ _ _ _).mp h).2).2
      exact Or.inr (Except.error.inj hx).symm
    · rw [hg] at h
      cases ((Prod.mk.injEq _ _ _ _).mp ((Prod.mk.injEq _ _ _ _).mp h).2).2

theorem saveData_err (t : String) (c : Bool) (st : St) :
    (saveData t c st).2 = none ∨
      (saveData t c st).2 = some (ConfError.txDoesNotExist t) := by
  unfold saveData
  rcases c with _ | _
  · exact Or.inl rfl
  · rcases hg : getTxn st t with _ | d
    · refine Or.inr ?_
      simp [hg]
    · refine Or.inl ?_
      simp [hg]

/-- With client-side validation off, CreateSite never returns a
ValidationError: its failures are transaction-load errors, the composite of
collected primitive errors, or a save error. -/
theorem createSite_no_validation_err (data : Site) (txid : String) (v : Nat)
    (st : St) (hval : st.useValidation = false) (m : String) :
    (CreateSite data txid v st).2.2 ≠ Out.ok (some (ConfError.validation m)) := by
  have hmain : CreateSite data txid v st = createSiteMain data txid v st := by
    simp [CreateSite, hval]
  rw [hmain]
  unfold createSiteMain
  rcases hld : loadDataForChange txid v st with ⟨st1, ops1, res⟩
  try rw [hld]
  dsimp only
  rcases res with e | t
  · dsimp only
    intro hc
    have he' := Option.some_inj.mp (Out.ok.inj hc)
    rcases loadDataForChange_err txid v st st1 ops1 e hld with h1 | h1 <;>
      (rw [h1] at he'; exact ConfError.noConfusion he')
  · dsimp only
    rcases hsvc : data.service with _ | svc
    · simp only [hsvc, serializeServiceToFrontend]
      intro hc
      exact Out.noConfusion hc
    · simp only [hsvc, serializeServiceToFrontend]
      generalize hcf : CreateFrontend { name := data.name, mode := svc.mode, maxconn := svc.maxconn, httpConnectionMode := svc.httpConnectionMode, defaultBackend := "" } t st1 = rcf
      rcases rcf with ⟨stf, opsf, ef⟩
      generalize hb : createSiteBinds data.name t svc.listeners stf = r3
      rcases r3 with ⟨st3, ops3, out3⟩
      rcases out3 with errsB | _
      · dsimp only
        generalize hf : createSiteFarms data.name t data.farms st3 = r4
        rcases r4 with ⟨st4, ops4, out4⟩
        rcases out4 with errsF | _
        · dsimp only
          split
          · intro hc
            have he := Out.ok.inj hc
            rcases saveData_err t (txid = "") st4 with h1 | h1 <;> rw [h1] at he
            · exact Option.noConfusion he
            · exact ConfError.noConfusion (Option.some_inj.mp he)
          · intro hc
            have he := Option.some_inj.mp (Out.ok.inj hc)
            rw [handleError_err] at he
            exact ConfError.noConfusion he
        · intro hc
          exact Out.noConfusion hc
      · intro hc
        exact Out.noConfusion hc

theorem editFarmsLoop_two_defaults (name t : String) (confFarms : List SiteFarm) :
    ∀ (farms : List SiteFarm) (defaultBck : String) (st : St),
      (∀ f ∈ farms, f.useAs = "default" → f.name ≠ "") →
      (2 ≤ (farms.filter (fun f => f.useAs == "default")).length ∨
        (defaultBck ≠ "" ∧ 1 ≤ (farms.filter (fun f => f.useAs == "default")).length)) →
      ∃ st' ops, editFarmsLoop name t confFarms farms defaultBck st =
        (st', ops, FarmsOut.early (ConfError.validation (multipleDefaultMsg name))) := by
  intro farms
  induction farms with
  | nil =>
    intro defaultBck st hnm hcnt
    exfalso
    rcases hcnt with h | ⟨_, h⟩ <;> simp at h
  | cons b bs ih =>
    intro defaultBck st hnm hcnt
    unfold editFarmsLoop
    by_cases hbd : b.useAs = "default"
    · by_cases hdb : defaultBck = ""
      · subst hdb
        have hcnt' : 2 ≤ ((b :: bs).filter (fun f => f.useAs == "default")).length := by
          rcases hcnt with h | ⟨hne, _⟩
          · exact h
          · exact absurd rfl hne
        have htail : 1 ≤ (bs.filter (fun f => f.useAs == "default")).length := by
          rw [List.filter_cons, if_pos (by simp [hbd])] at hcnt'
          simpa using hcnt'
        have hbn : b.name ≠ "" := hnm b (List.mem_cons_self b bs) hbd
        have hnm' : ∀ f ∈ bs, f.useAs = "default" → f.name ≠ "" :=
          fun f hf => hnm f (List.mem_cons_of_mem b hf)
        rcases hfind : confFarms.find? (fun confB => confB.name == b.name) with _ | confB
        · try rw [hfind]
          dsimp only
          rw [if_neg (by simp)]
          rw [if_pos hbd]
          obtain ⟨st', ops, hrec⟩ := ih b.name _ hnm' (Or.inr ⟨hbn, htail⟩)
          rw [hrec]
          exact ⟨_, _, rfl⟩
        · try rw [hfind]
          dsimp only
          rw [if_neg (by simp)]
          rw [if_pos hbd]
          by_cases heq : b = confB
          · rw [if_pos heq]
            obtain ⟨st', ops, hrec⟩ := ih b.name _ hnm' (Or.inr ⟨hbn, htail⟩)
            rw [hrec]
            exact ⟨_, _, rfl⟩
          · rw [if_neg heq]
            obtain ⟨st', ops, hrec⟩ := ih b.name _ hnm' (Or.inr ⟨hbn, htail⟩)
            rw [hrec]
            exact ⟨_, _, rfl⟩
      · rcases hfind : confFarms.find? (fun confB => confB.name == b.name) with _ | confB
        · try rw [hfind]
          dsimp only
          rw [if_pos ⟨hbd, hdb⟩]
          exact ⟨_, _, rfl⟩
        · try rw [hfind]
          dsimp only
          rw [if_pos ⟨hbd, hdb⟩]
          exact ⟨_, _, rfl⟩
    · have htail : (bs.filter (fun f => f.useAs == "default")).length =
          ((b :: bs).filter (fun f => f.useAs == "default")).length := by
        rw [List.filter_cons, if_neg (by simp [hbd])]
      have hnm' : ∀ f ∈ bs, f.useAs = "default" → f.name ≠ "" :=
        fun f hf => hnm f (List.mem_cons_of_mem b hf)
      have hcnt' : 2 ≤ (bs.filter (fun f => f.useAs == "default")).length ∨
          (defaultBck ≠ "" ∧ 1 ≤ (bs.filter (fun f => f.useAs == "default")).length) := by
        rw [htail]
        exact hcnt
      rcases hfind : confFarms.find? (fun confB => confB.name == b.name) with _ | confB
      · try rw [hfind]
        dsimp only
        rw [if_neg (by intro hx; exact hbd hx.1)]
        rw [if_neg hbd]
        obtain ⟨st', ops, hrec⟩ := ih defaultBck _ hnm' hcnt'
        rw [hrec]
        exact ⟨_, _, rfl⟩
      · try rw [hfind]
        dsimp only
        rw [if_neg (by intro hx; exact hbd hx.1)]
        rw [if_neg hbd]
        by_cases heq : b = confB
        · rw [if_pos heq]
          obtain ⟨st', ops, hrec⟩ := ih defaultBck _ hnm' hcnt'
          rw [hrec]
          exact ⟨_, _, rfl⟩
        · rw [if_neg heq]
          obtain ⟨st', ops, hrec⟩ := ih defaultBck _ hnm' hcnt'
          rw [hrec]
          exact ⟨_, _, rfl⟩

theorem parseSite_defaults_le_one (s : String) (p : Doc) (site : Site)
    (h : parseSite s p = some site) :
    (site.farms.filter (fun f => f.useAs == "default")).length ≤ 1 := by
  obtain ⟨-, hmap⟩ := parseSite_farmTags s p site h
  have hcond : ∀ (rs : List Rule),
      ((rs.map (fun ub => (("conditional" : String), ub.name))).filter
        (fun x => x.1 == "default")).length = 0 := by
    intro rs
    induction rs with
    | nil => rfl
    | cons r rs ih => simpa using ih
  have hlen : (site.farms.filter (fun f => f.useAs == "default")).length =
      ((site.farms.map (fun f => (f.useAs, f.name))).filter
        (fun x => x.1 == "default")).length := by
    rw [List.filter_map, List.length_map]
    rfl
  rw [hlen, hmap]
  unfold specFarmTags
  rw [List.filter_append, List.length_append]
  rw [hcond]
  rcases p.findFrontend s with _ | fr
  · simp
  · dsimp only
    split <;> simp

/-- C1 amended: only EditSite enforces the single-default rule. When the
current site was just read, the service phase completes, and the desired
farms include at least two defaults (with nonempty names), EditSite returns
the multiple-default ValidationError directly — without aggregating it with
other errors. CreateSite performs no such check: with validation off it can
never return a ValidationError at all (the two-default site of the
counterexample is simply created, the last default winning). -/
theorem two_default_enforcement (st : St) (name : String) (data : Site)
    (txid : String) (v : Nat) (st1 st2 : St) (ops1 rops ops2 : List Op)
    (t : String) (vv : Nat) (confS : Site) (errsS : List ConfError)
    (hval : st.useValidation = false)
    (hload : loadDataForChange txid v st = (st1, ops1, Except.ok t))
    (hget : GetSite name txid st1 = (rops, Except.ok (vv, confS)))
    (hsp : editServicePhase data.name data.service confS.service t st1 =
      (st2, ops2, Out.ok errsS))
    (hnames : ∀ f ∈ data.farms, f.useAs = "default" → f.name ≠ "")
    (hcnt : 2 ≤ (data.farms.filter (fun f => f.useAs == "default")).length) :
    (∃ st' ops, EditSite name data txid v st =
      (st', ops, Out.ok (some (ConfError.validation (multipleDefaultMsg name))))) ∧
    (∀ (data' : Site) (txid' : String) (v' : Nat) (st' : St),
      st'.useValidation = false → ∀ m,
      (CreateSite data' txid' v' st').2.2 ≠ Out.ok (some (ConfError.validation m))) := by
  constructor
  · have hne : confS.farms ≠ data.farms := by
      intro heq
      have hle : (confS.farms.filter (fun f => f.useAs == "default")).length ≤ 1 := by
        unfold GetSite at hget
        rcases hgp : GetParser txid st1 with e | p
        · rw [hgp] at hget
          cases ((Prod.mk.injEq _ _ _ _).mp hget).2
        · rw [hgp] at hget
          dsimp only at hget
          by_cases hcs : checkSectionExists name p = true
          · rw [if_pos hcs] at hget
            rcases hps : parseSite name p with _ | site'
            · rw [hps] at hget
              cases ((Prod.mk.injEq _ _ _ _).mp hget).2
            · rw [hps] at hget
              have hx := Except.ok.inj ((Prod.mk.injEq _ _ _ _).mp hget).2
              have hsx : site' = confS := ((Prod.mk.injEq _ _ _ _).mp hx).2
              subst hsx
              exact parseSite_defaults_le_one name p site' hps
          · rw [if_neg hcs] at hget
            cases ((Prod.mk.injEq _ _ _ _).mp hget).2
      rw [heq] at hle
      omega
    have hmain : EditSite name data txid v st = editSiteMain name data txid v st := by
      simp [EditSite, hval]
    rw [hmain]
    unfold editSiteMain
    rw [hload]
    dsimp only
    rw [hget]
    dsimp only
    rw [hsp]
    dsimp only
    rw [if_neg hne]
    obtain ⟨st', ops, hrec⟩ :=
      editFarmsLoop_two_defaults name t confS.farms data.farms "" st2 hnames
        (Or.inl hcnt)
    rw [hrec]
    exact ⟨_, _, rfl⟩
  · intro data' txid' v' st' hval' m
    exact createSite_no_validation_err data' txid' v' st' hval' m

/-- Witness for C1's amended theorem: over the bare web2 frontend, editing in
two default farms is rejected with the multiple-default ValidationError,
while CreateSite (validation off) can never produce a ValidationError. -/
theorem two_default_enforcement_witness :
    (∃ st' ops, EditSite "web2" { name := "web2", service := some svcPlain, farms := [mkFarm "a" "default" "" "" [], mkFarm "b" "default" "" "" []] } "" 0 { stEmpty with committed := { Doc.empty with frontends := [{ name := "web2", mode := "http", maxconn := none, httpConnectionMode := "", defaultBackend := "" }] } } =
      (st', ops, Out.ok (some (ConfError.validation (multipleDefaultMsg "web2"))))) ∧
    (∀ (data' : Site) (txid' : String) (v' : Nat) (st' : St),
      st'.useValidation = false → ∀ m,
      (CreateSite data' txid' v' st').2.2 ≠ Out.ok (some (ConfError.validation m))) :=
  two_default_enforcement
    { stEmpty with committed := { Doc.empty with frontends := [{ name := "web2", mode := "http", maxconn := none, httpConnectionMode := "", defaultBackend := "" }] } }
    "web2" { name := "web2", service := some svcPlain, farms := [mkFarm "a" "default" "" "" [], mkFarm "b" "default" "" "" []] }
    "" 0 _ _ [Op.loadData "" "tx0"] [Op.siteRead "web2" ""] [] "tx0" 0
    { name := "web2", service := some { httpConnectionMode := "", maxconn := none, mode := "http", listeners := [] }, farms := [] }
    [] rfl rfl rfl rfl (by decide) (by decide)

/-! ### C2 -/

/-- C2 counterexample: CreateSite succeeds on a site listing its conditional
farm before its default farm, but the site GetSite then returns is the
default-first reordering — not the created site modulo auto-naming alone. -/
theorem roundtrip_order_cex :
    (CreateSite swappedSite "" 0 stEmpty).2.2 = Out.ok none ∧
    (GetSite "web" "" (CreateSite swappedSite "" 0 stEmpty).1).2 =
      Except.ok (1, expectedSite { swappedSite with farms := [mkFarm "d" "default" "" "" [], mkFarm "c" "conditional" "x" "y" []] }) ∧
    expectedSite { swappedSite with farms := [mkFarm "d" "default" "" "" [], mkFarm "c" "conditional" "x" "y" []] } ≠
      autoNamedSite swappedSite :=
  ⟨rfl, rfl, by decide⟩

theorem alookup_aset {α : Type} (m : List (String × α)) (k : String) (v : α) :
    alookup (aset m k v) k = some v := by
  induction m with
  | nil => simp [aset, alookup]
  | cons kv m ih =>
    rcases kv with ⟨k0, v0⟩
    by_cases h : k0 = k
    · simp [aset, alookup, h]
    · simp [aset, alookup, h, ih]

theorem alookup_aset_ne {α : Type} (m : List (String × α)) (k k' : String)
    (v : α) (hne : k' ≠ k) : alookup (aset m k v) k' = alookup m k' := by
  induction m with
  | nil => simp [aset, alookup, Ne.symm hne]
  | cons kv m ih =>
    rcases kv with ⟨k0, v0⟩
    by_cases h : k0 = k
    · subst h
      simp [aset, alookup, Ne.symm hne]
    · simp [aset, alookup, h, ih]

theorem aset_aset {α : Type} (m : List (String × α)) (k : String) (v w : α) :
    aset (aset m k v) k w = aset m k w := by
  induction m with
  | nil => simp [aset]
  | cons kv m ih =>
    rcases kv with ⟨k0, v0⟩
    by_cases h : k0 = k
    · simp [aset, h]
    · simp [aset, h, ih]

theorem aset_self {α : Type} : ∀ (m : List (String × α)) (k : String) (v : α),
    alookup m k = some v → aset m k v = m := by
  intro m k v hl
  induction m with
  | nil => cases hl
  | cons kv m ih =>
    rcases kv with ⟨k0, v0⟩
    unfold alookup at hl
    by_cases h : k0 = k
    · rw [if_pos h] at hl
      simp [aset, h, Option.some_inj.mp hl]
    · rw [if_neg h] at hl
      simp [aset, h, ih hl]

theorem agetD_aset {α : Type} (m : List (String × List α)) (k : String)
    (v : List α) : agetD (aset m k v) k = v := by
  unfold agetD
  rw [alookup_aset]
  rfl

theorem agetD_aset_ne {α : Type} (m : List (String × List α)) (k k' : String)
    (v : List α) (hne : k' ≠ k) : agetD (aset m k v) k' = agetD m k' := by
  unfold agetD
  rw [alookup_aset_ne m k k' v hne]

theorem getTxn_setTxn (st : St) (t : String) (d : Doc) :
    getTxn (setTxn st t d) t = some d := by
  unfold getTxn setTxn
  exact alookup_aset st.txns t d

theorem setTxn_setTxn (st : St) (t : String) (d d' : Doc) :
    setTxn (setTxn st t d) t d' = setTxn st t d' := by
  unfold setTxn
  dsimp only
  rw [aset_aset]

theorem any_beq_false {α : Type} (get : α → String) (xs : List α) (nm : String)
    (h : nm ∉ xs.map get) : xs.any (fun x => get x == nm) = false := by
  induction xs with
  | nil => rfl
  | cons x xs ih =>
    have h1 : get x ≠ nm := by
      intro he
      exact h (he ▸ List.mem_map_of_mem get (List.mem_cons_self x xs))
    have h2 : nm ∉ xs.map get := fun hm => h (List.mem_cons_of_mem _ hm)
    rw [List.any_cons]
    rw [ih h2]
    simp [h1]

theorem any_beq_true {α : Type} (get : α → String) (xs : List α) (nm : String)
    (h : nm ∈ xs.map get) : xs.any (fun x => get x == nm) = true := by
  rw [List.any_eq_true]
  rcases List.mem_map.mp h with ⟨x, hx, hget⟩
  exact ⟨x, hx, by simp [hget]⟩

theorem createSiteBinds_success (siteName t : String) :
    ∀ (ls : List Listener) (st : St) (d : Doc),
      getTxn st t = some d →
      d.frontends.any (fun fr => fr.name == siteName) = true →
      (∀ l ∈ ls, (sanitizeListener l).isSome) →
      ((agetD d.binds siteName).map (fun b => b.name) ++
        (sanL ls).map (fun l => l.name)).Nodup →
      ∃ d', createSiteBinds siteName t ls st =
          (setTxn st t d', (sanL ls).map (fun l => Op.createBind siteName l), Out.ok []) ∧
        d'.frontends = d.frontends ∧ d'.backends = d.backends ∧
        d'.servers = d.servers ∧ d'.rules = d.rules ∧
        agetD d'.binds siteName = agetD d.binds siteName ++ sanL ls := by
  intro ls
  induction ls with
  | nil =>
    intro st d hd hfr hsan hnd
    refine ⟨d, ?_, rfl, rfl, rfl, rfl, by simp [sanL]⟩
    have hst : setTxn st t d = st := by
      unfold setTxn
      rw [aset_self st.txns t d hd]
    rw [hst]
    rfl
  | cons l ls ih =>
    intro st d hd hfr hsan hnd
    have hl : (sanitizeListener l).isSome := hsan l (List.mem_cons_self l ls)
    rcases hsl : sanitizeListener l with _ | l1
    · rw [hsl] at hl
      cases hl
    · have hsanL : sanL (l :: ls) = l1 :: sanL ls := by
        unfold sanL
        rw [List.map_cons, hsl]
        rfl
      have hnotmem : l1.name ∉ (agetD d.binds siteName).map (fun b => b.name) := by
        rw [hsanL] at hnd
        rw [List.map_cons] at hnd
        intro hmem
        have hdisj := (List.nodup_append.mp hnd).2.2
        exact hdisj hmem (List.mem_cons_self _ _)
      have hcb : CreateBind siteName l1 t st =
          (setTxn st t { d with binds := aset d.binds siteName (agetD d.binds siteName ++ [l1]) },
           [Op.createBind siteName l1], none) := by
        unfold CreateBind
        rw [hd]
        dsimp only
        rw [hfr]
        rw [any_beq_false (fun b => b.name) (agetD d.binds siteName) l1.name hnotmem]
        rfl
      have hd1 : getTxn (setTxn st t { d with binds := aset d.binds siteName (agetD d.binds siteName ++ [l1]) }) t =
          some { d with binds := aset d.binds siteName (agetD d.binds siteName ++ [l1]) } :=
        getTxn_setTxn st t _
      have hnd1 : ((agetD { d with binds := aset d.binds siteName (agetD d.binds siteName ++ [l1]) : Doc }.binds siteName).map (fun (b : Listener) => b.name) ++
          (sanL ls).map (fun (l : Listener) => l.name)).Nodup := by
        dsimp only
        rw [agetD_aset]
        rw [hsanL, List.map_cons] at hnd
        rw [List.map_append]
        simpa [List.append_assoc] using hnd
      obtain ⟨d', heq, hfr', hbk', hsv', hru', hbinds'⟩ :=
        ih (setTxn st t { d with binds := aset d.binds siteName (agetD d.binds siteName ++ [l1]) })
          { d with binds := aset d.binds siteName (agetD d.binds siteName ++ [l1]) }
          hd1 hfr (fun x hx => hsan x (List.mem_cons_of_mem l hx)) hnd1
      refine ⟨d', ?_, hfr', hbk', hsv', hru', ?_⟩
      · unfold createSiteBinds
        rw [hsl]
        dsimp only
        rw [hcb]
        dsimp only
        rw [heq]
        rw [setTxn_setTxn]
        rw [hsanL, List.map_cons]
        rfl
      · rw [hbinds']
        dsimp only
        rw [agetD_aset]
        rw [hsanL]
        simp [List.append_assoc]

theorem createSiteServers_success (bName t : String) :
    ∀ (ss : List Server) (st : St) (d : Doc),
      getTxn st t = some d →
      d.backends.any (fun bk => bk.name == bName) = true →
      (∀ s ∈ ss, (sanitizeServer s).isSome) →
      ((agetD d.servers bName).map (fun (s : Server) => s.name) ++
        (sanS ss).map (fun (s : Server) => s.name)).Nodup →
      ∃ d', createSiteServers bName t ss st =
          (setTxn st t d', (sanS ss).map (fun s => Op.createServer bName s), Out.ok []) ∧
        d'.frontends = d.frontends ∧ d'.backends = d.backends ∧
        d'.binds = d.binds ∧ d'.rules = d.rules ∧
        agetD d'.servers bName = agetD d.servers bName ++ sanS ss ∧
        (∀ k, k ≠ bName → alookup d'.servers k = alookup d.servers k) := by
  intro ss
  induction ss with
  | nil =>
    intro st d hd hbk hsan hnd
    refine ⟨d, ?_, rfl, rfl, rfl, rfl, by simp [sanS], fun k _ => rfl⟩
    have hst : setTxn st t d = st := by
      unfold setTxn
      rw [aset_self st.txns t d hd]
    rw [hst]
    rfl
  | cons s ss ih =>
    intro st d hd hbk hsan hnd
    have hl : (sanitizeServer s).isSome := hsan s (List.mem_cons_self s ss)
    rcases hsl : sanitizeServer s with _ | s1
    · rw [hsl] at hl
      cases hl
    · have hsanS : sanS (s :: ss) = s1 :: sanS ss := by
        unfold sanS
        rw [List.map_cons, hsl]
        rfl
      have hnotmem : s1.name ∉ (agetD d.servers bName).map (fun (x : Server) => x.name) := by
        rw [hsanS] at hnd
        rw [List.map_cons] at hnd
        intro hmem
        have hdisj := (List.nodup_append.mp hnd).2.2
        exact hdisj hmem (List.mem_cons_self _ _)
      have hcs : CreateServer bName s1 t st =
          (setTxn st t { d with servers := aset d.servers bName (agetD d.servers bName ++ [s1]) },
           [Op.createServer bName s1], none) := by
        unfold CreateServer
        rw [hd]
        dsimp only
        rw [hbk]
        rw [any_beq_false (fun (x : Server) => x.name) (agetD d.servers bName) s1.name hnotmem]
        rfl
      have hd1 : getTxn (setTxn st t { d with servers := aset d.servers bName (agetD d.servers bName ++ [s1]) }) t =
          some { d with servers := aset d.servers bName (agetD d.servers bName ++ [s1]) } :=
        getTxn_setTxn st t _
      have hnd1 : ((agetD { d with servers := aset d.servers bName (agetD d.servers bName ++ [s1]) : Doc }.servers bName).map (fun (x : Server) => x.name) ++
          (sanS ss).map (fun (x : Server) => x.name)).Nodup := by
        dsimp only
        rw [agetD_aset]
        rw [hsanS, List.map_cons] at hnd
        rw [List.map_append]
        simpa [List.append_assoc] using hnd
      obtain ⟨d', heq, hfr', hbk', hbi', hru', hsrv', hpres'⟩ :=
        ih (setTxn st t { d with servers := aset d.servers bName (agetD d.servers bName ++ [s1]) })
          { d with servers := aset d.servers bName (agetD d.servers bName ++ [s1]) }
          hd1 hbk (fun x hx => hsan x (List.mem_cons_of_mem s hx)) hnd1
      refine ⟨d', ?_, hfr', hbk', hbi', hru', ?_, ?_⟩
      · unfold createSiteServers
        rw [hsl]
        dsimp only
        rw [hcs]
        dsimp only
        rw [heq]
        rw [setTxn_setTxn]
        rw [hsanS, List.map_cons]
        rfl
      · rw [hsrv']
        dsimp only
        rw [agetD_aset]
        rw [hsanS]
        simp [List.append_assoc]
      · intro k hk
        rw [hpres' k hk]
        dsimp only
        rw [alookup_aset_ne d.servers bName k _ hk]

theorem rels_default_success (name t : String) (b : SiteFarm) (st : St)
    (d : Doc) (fr : Frontend) (hd : getTxn st t = some d)
    (hfr : d.frontends = [fr]) (hfrn : fr.name = name)
    (hb : b.useAs = "default") :
    createBckFrontendRels name b false t st =
      (setTxn st t { d with frontends := [{ fr with defaultBackend := b.name }] },
       [Op.editFrontend name { fr with defaultBackend := b.name }], none) := by
  have hadd : addDefaultBckToFrontend name b.name t st =
      (setTxn st t { d with frontends := [{ fr with defaultBackend := b.name }] },
       [Op.editFrontend name { fr with defaultBackend := b.name }], none) := by
    unfold addDefaultBckToFrontend
    rw [hd]
    dsimp only
    have hfind : d.findFrontend name = some fr := by
      unfold Doc.findFrontend
      rw [hfr]
      simp [hfrn]
    rw [hfind]
    unfold EditFrontend
    rw [hd]
    dsimp only
    rw [any_beq_true (fun (x : Frontend) => x.name) d.frontends name
      (by rw [hfr]; simp [hfrn])]
    rw [hfr]
    simp [hfrn]
  unfold createBckFrontendRels
  rw [if_pos hb]
  dsimp only
  rw [if_neg (by simp)]
  rw [hadd]
  rfl

theorem rels_cond_success (name t : String) (b : SiteFarm) (st : St) (d : Doc)
    (hd : getTxn st t = some d)
    (hfr : d.frontends.any (fun fr => fr.name == name) = true)
    (hb : b.useAs = "conditional") (hc : b.cond ≠ "") (hct : b.condTest ≠ "") :
    createBckFrontendRels name b false t st =
      (setTxn st t { d with rules := aset d.rules name (agetD d.rules name ++ [ruleOf b]) },
       [Op.createRule name (ruleOf b)], none) := by
  have hcr : CreateBackendSwitchingRule name (ruleOf b) t st =
      (setTxn st t { d with rules := aset d.rules name (agetD d.rules name ++ [ruleOf b]) },
       [Op.createRule name (ruleOf b)], none) := by
    unfold CreateBackendSwitchingRule
    rw [hd]
    dsimp only
    rw [hfr]
    rfl
  unfold createBckFrontendRels
  rw [if_neg (by simp [hb])]
  rw [if_neg (by rintro (h | h); exacts [hc h, hct h])]
  dsimp only
  rw [show ({ id := 0, name := b.name, cond := b.cond, condTest := b.condTest } : Rule) = ruleOf b from rfl]
  rw [hcr]

theorem createSiteFarms_cond_success (siteName t : String) :
    ∀ (fs : List SiteFarm) (st : St) (d : Doc),
      getTxn st t = some d →
      d.frontends.any (fun fr => fr.name == siteName) = true →
      CondFarms fs →
      (fs.map (fun f => f.name)).Nodup →
      (∀ f ∈ fs, f.name ∉ d.backends.map (fun (bk : Backend) => bk.name)) →
      (∀ f ∈ fs, alookup d.servers f.name = none) →
      (∀ f ∈ fs, (∀ s ∈ f.servers, (sanitizeServer s).isSome) ∧
        ((sanS f.servers).map (fun (s : Server) => s.name)).Nodup) →
      ∃ d' ops, createSiteFarms siteName t fs st = (setTxn st t d', ops, Out.ok []) ∧
        d'.frontends = d.frontends ∧ d'.binds = d.binds ∧
        d'.backends = d.backends ++ fs.map serializeFarmToBackend ∧
        (∀ f ∈ fs, agetD d'.servers f.name = sanS f.servers) ∧
        (∀ k, k ∉ fs.map (fun f => f.name) → alookup d'.servers k = alookup d.servers k) ∧
        agetD d'.rules siteName = agetD d.rules siteName ++ fs.map ruleOf := by
  intro fs
  induction fs with
  | nil =>
    intro st d hd hfr hcf hnd hbk hsv hwf
    refine ⟨d, [], ?_, rfl, rfl, by simp, by simp, fun k _ => rfl, by simp⟩
    have hst : setTxn st t d = st := by
      unfold setTxn
      rw [aset_self st.txns t d hd]
    rw [hst]
    rfl
  | cons f fs ih =>
    intro st d hd hfr hcf hnd hbk hsv hwf
    have hnd' := hnd
    rw [List.map_cons, List.nodup_cons] at hnd'
    obtain ⟨hfn_notin, hndtail⟩ := hnd'
    have hfree : f.name ∉ d.backends.map (fun (bk : Backend) => bk.name) :=
      hbk f (List.mem_cons_self f fs)
    have hcb : CreateBackend (serializeFarmToBackend f) t st =
        (setTxn st t { d with backends := d.backends ++ [serializeFarmToBackend f] },
         [Op.createBackend (serializeFarmToBackend f)], none) := by
      unfold CreateBackend
      rw [hd]
      dsimp only
      rw [any_beq_false (fun (bk : Backend) => bk.name) d.backends
        (serializeFarmToBackend f).name hfree]
      rfl
    have hd1 : getTxn (setTxn st t { d with backends := d.backends ++ [serializeFarmToBackend f] }) t =
        some { d with backends := d.backends ++ [serializeFarmToBackend f] } :=
      getTxn_setTxn st t _
    have hbkany : ({ d with backends := d.backends ++ [serializeFarmToBackend f] } : Doc).backends.any (fun bk => bk.name == f.name) = true := by
      dsimp only
      refine any_beq_true (fun (bk : Backend) => bk.name) _ f.name ?_
      rw [List.map_append]
      refine List.mem_append_right _ ?_
      simp [serializeFarmToBackend]
    have hsrvnil : agetD ({ d with backends := d.backends ++ [serializeFarmToBackend f] } : Doc).servers f.name = [] := by
      dsimp only
      unfold agetD
      rw [hsv f (List.mem_cons_self f fs)]
      rfl
    obtain ⟨hwf1, hwf2⟩ := hwf f (List.mem_cons_self f fs)
    obtain ⟨d2, heq2, hfr2, hbk2, hbi2, hru2, hsrv2, hpres2⟩ :=
      createSiteServers_success f.name t f.servers _ _ hd1 hbkany hwf1
        (by rw [hsrvnil]; simpa using hwf2)
    obtain ⟨hcD, hcC, hcT⟩ := hcf f (List.mem_cons_self f fs)
    have hrels := rels_cond_success siteName t f
      (setTxn (setTxn st t { d with backends := d.backends ++ [serializeFarmToBackend f] }) t d2)
      d2 (getTxn_setTxn _ t _) (by rw [hfr2]; exact hfr) hcD hcC hcT
    have hd3 : getTxn (setTxn (setTxn (setTxn st t { d with backends := d.backends ++ [serializeFarmToBackend f] }) t d2) t { d2 with rules := aset d2.rules siteName (agetD d2.rules siteName ++ [ruleOf f]) }) t =
        some { d2 with rules := aset d2.rules siteName (agetD d2.rules siteName ++ [ruleOf f]) } :=
      getTxn_setTxn _ t _
    have hne_head : ∀ g ∈ fs, g.name ≠ f.name := by
      intro g hg he
      exact hfn_notin (he ▸ List.mem_map_of_mem (fun x => x.name) hg)
    obtain ⟨d4, ops4, heq4, hfr4, hbi4, hbk4, hsrv4, hpres4, hru4⟩ :=
      ih _ { d2 with rules := aset d2.rules siteName (agetD d2.rules siteName ++ [ruleOf f]) }
        hd3
        (by dsimp only; rw [hfr2]; exact hfr)
        (fun g hg => hcf g (List.mem_cons_of_mem f hg))
        hndtail
        (by
          intro g hg
          dsimp only
          rw [hbk2]
          dsimp only
          rw [List.map_append]
          intro hmem
          rcases List.mem_append.mp hmem with h1 | h1
          · exact hbk g (List.mem_cons_of_mem f hg) h1
          · have : g.name = f.name := by simpa [serializeFarmToBackend] using h1
            exact hne_head g hg this)
        (by
          intro g hg
          dsimp only
          rw [hpres2 g.name (hne_head g hg)]
          dsimp only
          exact hsv g (List.mem_cons_of_mem f hg))
        (fun g hg => hwf g (List.mem_cons_of_mem f hg))
    have hfinal : createSiteFarms siteName t (f :: fs) st =
        (setTxn st t d4,
         Op.createBackend (serializeFarmToBackend f) ::
           ((sanS f.servers).map (fun s => Op.createServer f.name s) ++
            (Op.createRule siteName (ruleOf f) :: ops4)),
         Out.ok []) := by
      unfold createSiteFarms
      dsimp only
      rw [hcb]
      dsimp only
      rw [heq2]
      dsimp only
      rw [hrels]
      dsimp only
      rw [heq4]
      rw [setTxn_setTxn, setTxn_setTxn, setTxn_setTxn]
      simp [List.append_assoc, errList]
    refine ⟨d4, _, hfinal, ?_, ?_, ?_, ?_, ?_, ?_⟩
    · rw [hfr4]
      dsimp only
      rw [hfr2]
    · rw [hbi4]
      dsimp only
      rw [hbi2]
    · rw [hbk4]
      dsimp only
      rw [hbk2]
      dsimp only
      simp [List.append_assoc]
    · intro g hg
      rcases List.mem_cons.mp hg with hgf | hg'
      · subst hgf
        have hkeep : agetD d4.servers g.name = agetD { d2 with rules := aset d2.rules siteName (agetD d2.rules siteName ++ [ruleOf g]) : Doc }.servers g.name := by
          unfold agetD
          rw [hpres4 g.name (by intro hm; exact hfn_notin (by simpa using hm))]
        rw [hkeep]
        dsimp only
        rw [hsrv2, hsrvnil]
        rfl
      · exact hsrv4 g hg'
    · intro k hk
      rw [List.map_cons] at hk
      have hk1 : k ≠ f.name := fun he => hk (he ▸ List.mem_cons_self _ _)
      have hk2 : k ∉ fs.map (fun f => f.name) := fun hm => hk (List.mem_cons_of_mem _ hm)
      rw [hpres4 k hk2]
      dsimp only
      rw [hpres2 k hk1]
    · rw [hru4]
      dsimp only
      rw [agetD_aset]
      rw [hru2]
      dsimp only
      simp [List.append_assoc]

theorem find_ser (fs : List SiteFarm) (f : SiteFarm) (hf : f ∈ fs)
    (hnd : (fs.map (fun g => g.name)).Nodup) :
    (fs.map serializeFarmToBackend).find? (fun bk => bk.name == f.name) =
      some (serializeFarmToBackend f) := by
  induction fs with
  | nil => cases hf
  | cons g fs ih =>
    rw [List.map_cons, List.nodup_cons] at hnd
    rcases List.mem_cons.mp hf with hgf | hf'
    · subst hgf
      rw [List.map_cons]
      rw [List.find?_cons_of_pos]
      simp [serializeFarmToBackend]
    · have hne : g.name ≠ f.name := by
        intro he
        exact hnd.1 (he ▸ List.mem_map_of_mem (fun x => x.name) hf')
      rw [List.map_cons]
      rw [List.find?_cons_of_neg]
      · exact ih hf' hnd.2
      · simp [serializeFarmToBackend, hne]

theorem parse_condRules (p : Doc) :
    ∀ (fs : List SiteFarm),
      (∀ f ∈ fs, p.findBackend f.name = some (serializeFarmToBackend f)) →
      (∀ f ∈ fs, agetD p.servers f.name = sanS f.servers) →
      CondFarms fs →
      (fs.map ruleOf).filterMap
          (fun ub => parseFarm ub.name "conditional" ub.cond ub.condTest p) =
        fs.map normFarm := by
  intro fs
  induction fs with
  | nil => intro _ _ _; rfl
  | cons f fs ih =>
    intro hfind hsrv hcf
    rw [List.map_cons, List.filterMap_cons]
    have hpf : parseFarm (ruleOf f).name "conditional" (ruleOf f).cond (ruleOf f).condTest p =
        some (normFarm f) := by
      unfold parseFarm
      rw [show (ruleOf f).name = f.name from rfl]
      rw [hfind f (List.mem_cons_self f fs)]
      obtain ⟨hu, _, _⟩ := hcf f (List.mem_cons_self f fs)
      rw [hsrv f (List.mem_cons_self f fs)]
      unfold normFarm
      rw [hu]
      simp [serializeFarmToBackend, ruleOf]
    rw [hpf]
    rw [List.map_cons]
    rw [ih (fun g hg => hfind g (List.mem_cons_of_mem f hg))
        (fun g hg => hsrv g (List.mem_cons_of_mem f hg))
        (fun g hg => hcf g (List.mem_cons_of_mem f hg))]

theorem parseSite_final (S : Site) (svc : SiteService) (p : Doc) (fr : Frontend)
    (hsvc : S.service = some svc)
    (hfrl : p.frontends = [fr])
    (hfrn : fr.name = S.name)
    (hmode : fr.mode = svc.mode) (hmx : fr.maxconn = svc.maxconn)
    (hhttp : fr.httpConnectionMode = svc.httpConnectionMode)
    (hbinds : agetD p.binds S.name = sanL svc.listeners)
    (hbk : p.backends = S.farms.map serializeFarmToBackend)
    (hnd : (S.farms.map (fun f => f.name)).Nodup)
    (hsrv : ∀ f ∈ S.farms, agetD p.servers f.name = sanS f.servers)
    (hsplit :
      (fr.defaultBackend = "" ∧ CondFarms S.farms ∧
        agetD p.rules S.name = S.farms.map ruleOf) ∨
      (∃ f0 rest, S.farms = f0 :: rest ∧ fr.defaultBackend = f0.name ∧
        f0.name ≠ "" ∧ f0.useAs = "default" ∧ CondFarms rest ∧
        agetD p.rules S.name = rest.map ruleOf)) :
    parseSite S.name p = some (expectedSite S) := by
  have hfind : ∀ f ∈ S.farms, p.findBackend f.name = some (serializeFarmToBackend f) := by
    intro f hf
    unfold Doc.findBackend
    rw [hbk]
    exact find_ser S.farms f hf hnd
  have hff : p.findFrontend S.name = some fr := by
    unfold Doc.findFrontend
    rw [hfrl]
    simp [hfrn]
  unfold parseSite
  rw [hff]
  dsimp only
  rw [hbinds]
  rcases hsplit with ⟨hdb, hcf, hrules⟩ | ⟨f0, rest, hfs, hdb, hn0, hu0, hcrest, hrules⟩
  · rw [hrules]
    rw [if_neg (by simp [hdb])]
    rw [parse_condRules p S.farms hfind hsrv hcf]
    unfold expectedSite
    rw [hsvc]
    simp only [Option.map_some']
    unfold normService
    rw [hmode, hmx, hhttp]
    rw [List.nil_append]
  · rw [hrules]
    rw [if_pos (by rw [hdb]; exact hn0)]
    have hpf0 : parseFarm fr.defaultBackend "default" "" "" p = some (normFarm f0) := by
      rw [hdb]
      unfold parseFarm
      rw [hfind f0 (by rw [hfs]; exact List.mem_cons_self f0 rest)]
      rw [hsrv f0 (by rw [hfs]; exact List.mem_cons_self f0 rest)]
      unfold normFarm
      rw [hu0]
      simp [serializeFarmToBackend]
    rw [hpf0]
    rw [parse_condRules p rest
        (fun g hg => hfind g (by rw [hfs]; exact List.mem_cons_of_mem f0 hg))
        (fun g hg => hsrv g (by rw [hfs]; exact List.mem_cons_of_mem f0 hg))
        hcrest]
    unfold expectedSite
    rw [hsvc]
    simp only [Option.map_some']
    unfold normService
    rw [hmode, hmx, hhttp]
    rw [hfs]
    rw [List.map_cons]
    rfl

theorem createSiteMain_commit (S : Site) (svc : SiteService) (fr0 : Frontend)
    (dF dB d4 : Doc) (opsB ops4 : List Op)
    (hsvc : S.service = some svc)
    (hser : serializeServiceToFrontend S.service S.name = some fr0)
    (hcf : CreateFrontend fr0 "tx0" stTx0 =
      (setTxn stTx0 "tx0" dF, [Op.createFrontend fr0], none))
    (heqB : createSiteBinds S.name "tx0" svc.listeners (setTxn stTx0 "tx0" dF) =
      (setTxn stTx0 "tx0" dB, opsB, Out.ok []))
    (heqF : createSiteFarms S.name "tx0" S.farms (setTxn stTx0 "tx0" dB) =
      (setTxn (setTxn stTx0 "tx0" dB) "tx0" d4, ops4, Out.ok [])) :
    CreateSite S "" 0 stEmpty =
      ({ setTxn (setTxn stTx0 "tx0" dB) "tx0" d4 with
           committed := d4, txns := [], version := 1 },
       Op.loadData "" "tx0" :: Op.createFrontend fr0 :: (opsB ++ ops4),
       Out.ok none) := by
  have h0 : CreateSite S "" 0 stEmpty = createSiteMain S "" 0 stEmpty := rfl
  rw [h0]
  unfold createSiteMain
  rw [show loadDataForChange "" 0 stEmpty =
      (stTx0, [Op.loadData "" "tx0"], Except.ok "tx0") from rfl]
  dsimp only
  rw [hser]
  dsimp only
  rw [hcf]
  rw [hsvc]
  dsimp only
  rw [heqB]
  dsimp only
  rw [heqF]
  dsimp only
  rfl

theorem getSite_of_commit (S : Site) (stF : St) (d4 : Doc) (fr : Frontend)
    (hcom : stF.committed = d4) (hver : stF.version = 1)
    (hfrl : d4.frontends = [fr]) (hfrn : fr.name = S.name)
    (hparse : parseSite S.name d4 = some (expectedSite S)) :
    (GetSite S.name "" stF).2 = Except.ok (1, expectedSite S) := by
  unfold GetSite
  have hgp : GetParser "" stF = Except.ok d4 := by
    unfold GetParser
    rw [if_pos rfl, hcom]
  rw [hgp]
  dsimp only
  have hcheck : checkSectionExists S.name d4 = true := by
    unfold checkSectionExists
    rw [hfrl]
    exact any_beq_true (fun (x : Frontend) => x.name) [fr] S.name (by simp [hfrn])
  rw [if_pos hcheck]
  rw [hparse]
  dsimp only
  unfold GetVersion
  rw [hver]

/-- C2 (corrected): the Create-then-Get round trip holds up to the code's
normal form, under round-trip well-formedness of the desired site. For every
site S with a service, sanitizable unnamed listeners and servers,
duplicate-free (auto-named) listener, farm and per-farm server names, and a
default-first farm list, CreateSite from the empty configuration succeeds,
and GetSite(S.name) then returns exactly expectedSite S: the desired site
with unnamed listeners and servers renamed to address:port and the default
farm's Cond/CondTest fields erased — not S modulo auto-naming alone. -/
theorem create_get_roundtrip (S : Site) (hwf : RoundTripWf S) :
    ∃ st' ops, CreateSite S "" 0 stEmpty = (st', ops, Out.ok none) ∧
      (GetSite S.name "" st').2 = Except.ok (1, expectedSite S) := by
  obtain ⟨⟨svc, hsvc, hls, hlnd⟩, hfnd, hfwf, hshape⟩ := hwf
  have hser : serializeServiceToFrontend S.service S.name =
      some (frontendOf svc S.name) := by
    rw [hsvc]
    rfl
  have hcf : CreateFrontend (frontendOf svc S.name) "tx0" stTx0 =
      (setTxn stTx0 "tx0" (docFr (frontendOf svc S.name)),
       [Op.createFrontend (frontendOf svc S.name)], none) := by
    unfold CreateFrontend
    rw [show getTxn stTx0 "tx0" = some Doc.empty from rfl]
    dsimp only
    rfl
  have hfr0any : (docFr (frontendOf svc S.name)).frontends.any
      (fun fr => fr.name == S.name) = true := by
    refine any_beq_true (fun (x : Frontend) => x.name) _ S.name ?_
    simp [docFr, frontendOf, Doc.empty]
  have hndB : ((agetD (docFr (frontendOf svc S.name)).binds S.name).map
        (fun (b : Listener) => b.name) ++
      (sanL svc.listeners).map (fun (l : Listener) => l.name)).Nodup := by
    rw [show agetD (docFr (frontendOf svc S.name)).binds S.name =
        ([] : List Listener) from rfl]
    simpa using hlnd
  obtain ⟨dB, heqB, hfrB, hbkB, hsvB, hruB, hbindsB⟩ :=
    createSiteBinds_success S.name "tx0" svc.listeners
      (setTxn stTx0 "tx0" (docFr (frontendOf svc S.name)))
      (docFr (frontendOf svc S.name))
      (getTxn_setTxn stTx0 "tx0" _) hfr0any hls hndB
  rw [setTxn_setTxn] at heqB
  have hfrB1 : dB.frontends = [frontendOf svc S.name] := by
    rw [hfrB]
    rfl
  have hbkB1 : dB.backends = [] := by
    rw [hbkB]
    rfl
  have hsvB1 : dB.servers = [] := by
    rw [hsvB]
    rfl
  have hruB1 : dB.rules = [] := by
    rw [hruB]
    rfl
  have hbindsB1 : agetD dB.binds S.name = sanL svc.listeners := by
    rw [hbindsB]
    rfl
  have hfrBany : dB.frontends.any (fun fr => fr.name == S.name) = true := by
    rw [hfrB]
    exact hfr0any
  have hsplit2 : CondFarms S.farms ∨
      ∃ f0 rest, S.farms = f0 :: rest ∧ f0.useAs = "default" ∧ f0.name ≠ "" ∧
        CondFarms rest := by
    rcases hfs2 : S.farms with _ | ⟨f0, rest⟩
    · exact Or.inl (fun f hf => absurd hf (List.not_mem_nil f))
    · rw [hfs2] at hshape
      have hshape' : (f0.useAs = "default" ∧ f0.name ≠ "" ∧ CondFarms rest) ∨
          CondFarms (f0 :: rest) := hshape
      rcases hshape' with ⟨h1, h2, h3⟩ | h
      · exact Or.inr ⟨f0, rest, rfl, h1, h2, h3⟩
      · exact Or.inl h
  rcases hsplit2 with hcfAll | ⟨f0, rest, hfs2, hu0, hn0, hcrest⟩
  · obtain ⟨d4, ops4, heqF, hfr4, hbi4, hbk4, hsrv4, hpres4, hru4⟩ :=
      createSiteFarms_cond_success S.name "tx0" S.farms (setTxn stTx0 "tx0" dB) dB
        (getTxn_setTxn stTx0 "tx0" dB) hfrBany hcfAll hfnd
        (by intro f hf; rw [hbkB1]; simp)
        (by intro f hf; rw [hsvB1]; rfl)
        hfwf
    have hrun := createSiteMain_commit S svc (frontendOf svc S.name)
      (docFr (frontendOf svc S.name)) dB d4 _ ops4 hsvc hser hcf heqB heqF
    refine ⟨_, _, hrun, ?_⟩
    refine getSite_of_commit S _ d4 (frontendOf svc S.name) rfl rfl ?_ rfl ?_
    · rw [hfr4, hfrB1]
    · refine parseSite_final S svc d4 (frontendOf svc S.name) hsvc ?_ rfl rfl rfl rfl
        ?_ ?_ hfnd hsrv4 (Or.inl ⟨rfl, hcfAll, ?_⟩)
      · rw [hfr4, hfrB1]
      · rw [hbi4, hbindsB1]
      · rw [hbk4, hbkB1, List.nil_append]
      · rw [hru4, hruB1]
        rfl
  · have hf0mem : f0 ∈ S.farms := by
      rw [hfs2]
      exact List.mem_cons_self f0 rest
    obtain ⟨hs0a, hs0b⟩ := hfwf f0 hf0mem
    have hfndC := hfnd
    rw [hfs2, List.map_cons] at hfndC
    obtain ⟨hf0nin, hndrest⟩ := List.nodup_cons.mp hfndC
    obtain ⟨d1, hd1, hd1fr, hd1bi, hd1bk, hd1sv, hd1ru⟩ :
        ∃ d1, ({ dB with backends := dB.backends ++ [serializeFarmToBackend f0] } : Doc) = d1 ∧
          d1.frontends = dB.frontends ∧ d1.binds = dB.binds ∧
          d1.backends = dB.backends ++ [serializeFarmToBackend f0] ∧
          d1.servers = dB.servers ∧ d1.rules = dB.rules :=
      ⟨_, rfl, rfl, rfl, rfl, rfl, rfl⟩
    have hcb0 : CreateBackend (serializeFarmToBackend f0) "tx0" (setTxn stTx0 "tx0" dB) =
        (setTxn (setTxn stTx0 "tx0" dB) "tx0" d1,
         [Op.createBackend (serializeFarmToBackend f0)], none) := by
      unfold CreateBackend
      rw [getTxn_setTxn]
      dsimp only
      rw [show dB.backends.any (fun bk => bk.name == (serializeFarmToBackend f0).name) = false
        from by rw [hbkB1]; rfl]
      rw [hd1]
      rfl
    have hd1tx : getTxn (setTxn (setTxn stTx0 "tx0" dB) "tx0" d1) "tx0" = some d1 :=
      getTxn_setTxn _ "tx0" d1
    have hbkany1 : d1.backends.any (fun bk => bk.name == f0.name) = true := by
      refine any_beq_true (fun (bk : Backend) => bk.name) _ f0.name ?_
      rw [hd1bk, List.map_append]
      refine List.mem_append_right _ ?_
      simp [serializeFarmToBackend]
    have hsrvnil1 : agetD d1.servers f0.name = [] := by
      rw [hd1sv, hsvB1]
      rfl
    obtain ⟨d2, heq2, hfr2, hbk2, hbi2, hru2, hsrv2, hpres2⟩ :=
      createSiteServers_success f0.name "tx0" f0.servers _ _ hd1tx hbkany1 hs0a
        (by rw [hsrvnil1]; simpa using hs0b)
    have hfr2' : d2.frontends = [frontendOf svc S.name] := by
      rw [hfr2, hd1fr, hfrB1]
    have hrels := rels_default_success S.name "tx0" f0
      (setTxn (setTxn (setTxn stTx0 "tx0" dB) "tx0" d1) "tx0" d2) d2
      (frontendOf svc S.name) (getTxn_setTxn _ "tx0" d2) hfr2' rfl hu0
    obtain ⟨fr1, hfr1, hfr1n, hfr1m, hfr1mx, hfr1h, hfr1d⟩ :
        ∃ fr1, ({ name := (frontendOf svc S.name).name,
                  mode := (frontendOf svc S.name).mode,
                  maxconn := (frontendOf svc S.name).maxconn,
                  httpConnectionMode := (frontendOf svc S.name).httpConnectionMode,
                  defaultBackend := f0.name } : Frontend) = fr1 ∧
          fr1.name = S.name ∧ fr1.mode = svc.mode ∧ fr1.maxconn = svc.maxconn ∧
          fr1.httpConnectionMode = svc.httpConnectionMode ∧
          fr1.defaultBackend = f0.name :=
      ⟨_, rfl, rfl, rfl, rfl, rfl, rfl⟩
    rw [hfr1] at hrels
    obtain ⟨d3, hd3, hd3fr, hd3bi, hd3bk, hd3sv, hd3ru⟩ :
        ∃ d3, ({ d2 with frontends := [fr1] } : Doc) = d3 ∧
          d3.frontends = [fr1] ∧
          d3.binds = d2.binds ∧ d3.backends = d2.backends ∧
          d3.servers = d2.servers ∧ d3.rules = d2.rules :=
      ⟨_, rfl, rfl, rfl, rfl, rfl, rfl⟩
    rw [hd3] at hrels
    have hfr3any : d3.frontends.any (fun fr => fr.name == S.name) = true := by
      rw [hd3fr]
      refine any_beq_true (fun (x : Frontend) => x.name) _ S.name ?_
      simp [hfr1n]
    have hne0 : ∀ g ∈ rest, g.name ≠ f0.name := by
      intro g hg he
      exact hf0nin (he ▸ List.mem_map_of_mem (fun x => x.name) hg)
    obtain ⟨d4, ops4, heq4, hfr4, hbi4, hbk4, hsrv4, hpres4, hru4⟩ :=
      createSiteFarms_cond_success S.name "tx0" rest
        (setTxn (setTxn (setTxn (setTxn stTx0 "tx0" dB) "tx0" d1) "tx0" d2) "tx0" d3) d3
        (getTxn_setTxn _ "tx0" d3) hfr3any hcrest hndrest
        (by
          intro g hg
          rw [hd3bk, hbk2, hd1bk, hbkB1, List.nil_append]
          intro hm
          have hgf : g.name = f0.name := by
            simpa [serializeFarmToBackend] using hm
          exact hne0 g hg hgf)
        (by
          intro g hg
          rw [hd3sv, hpres2 g.name (hne0 g hg), hd1sv, hsvB1]
          rfl)
        (fun g hg => hfwf g (by rw [hfs2]; exact List.mem_cons_of_mem f0 hg))
    have heqF : createSiteFarms S.name "tx0" S.farms (setTxn stTx0 "tx0" dB) =
        (setTxn (setTxn stTx0 "tx0" dB) "tx0" d4,
         Op.createBackend (serializeFarmToBackend f0) ::
           ((sanS f0.servers).map (fun s => Op.createServer f0.name s) ++
            (Op.editFrontend S.name fr1 :: ops4)),
         Out.ok []) := by
      rw [hfs2]
      unfold createSiteFarms
      dsimp only
      rw [hcb0]
      dsimp only
      rw [heq2]
      dsimp only
      rw [hrels]
      dsimp only
      rw [heq4]
      rw [setTxn_setTxn, setTxn_setTxn, setTxn_setTxn]
      simp [List.append_assoc, errList]
    have hrun := createSiteMain_commit S svc (frontendOf svc S.name)
      (docFr (frontendOf svc S.name)) dB d4 _ _ hsvc hser hcf heqB heqF
    refine ⟨_, _, hrun, ?_⟩
    have hsrvFin : ∀ f ∈ S.farms, agetD d4.servers f.name = sanS f.servers := by
      intro g hg
      rw [hfs2] at hg
      rcases List.mem_cons.mp hg with hgf | hg'
      · subst hgf
        have hnot : g.name ∉ rest.map (fun f => f.name) := hf0nin
        have h1 : agetD d4.servers g.name = agetD d3.servers g.name := by
          unfold agetD
          rw [hpres4 g.name hnot]
        rw [h1, hd3sv, hsrv2, hsrvnil1, List.nil_append]
      · exact hsrv4 g hg'
    refine getSite_of_commit S _ d4 fr1 rfl rfl ?_ hfr1n ?_
    · rw [hfr4, hd3fr]
    · refine parseSite_final S svc d4 fr1 hsvc ?_ hfr1n hfr1m hfr1mx hfr1h
        ?_ ?_ hfnd hsrvFin (Or.inr ⟨f0, rest, hfs2, hfr1d, hn0, hu0, hcrest, ?_⟩)
      · rw [hfr4, hd3fr]
      · rw [hbi4, hd3bi, hbi2, hd1bi, hbindsB1]
      · rw [hbk4, hd3bk, hbk2, hd1bk, hbkB1, List.nil_append, hfs2, List.map_cons]
        try rfl
      · rw [hru4, hd3ru, hru2, hd1ru, hruB1]
        rfl

/-- Witness for C2 at the example site: one unnamed listener and one default
farm with one unnamed server, all round-trip well-formed. -/
theorem create_get_roundtrip_witness :
    ∃ st' ops, CreateSite exampleSite "" 0 stEmpty = (st', ops, Out.ok none) ∧
      (GetSite exampleSite.name "" st').2 = Except.ok (1, expectedSite exampleSite) :=
  create_get_roundtrip exampleSite
    ⟨⟨_, rfl, by decide, by decide⟩, by decide, by decide,
     Or.inl ⟨rfl, by decide, fun f hf => absurd hf (List.not_mem_nil f)⟩⟩

end ClientNative
